import Mathlib

/-!
# CDVDMessageQueue (xbmc/cores/VideoPlayer/DVDMessageQueue.cpp)

A shallow embedding of the priority message queue of the video player and
theorems about its ordering, its byte and time accounting and its level
estimate.

Conventions of the embedding.

* The queue object is a record of its member variables; every member function
  is a function from the record (and the arguments) to the results and the new
  record.  The lock `m_section` and the event `m_hEvent` carry no data and are
  left out: every function is modelled as one uninterrupted call.
* `m_list` is a `List` whose head is `m_list.begin()` (the front) and whose
  last element is `m_list.back()`.
* The `int` members `m_iDataSize` and `m_iMaxDataSize` are `Int`.  Every `int`
  result that the source stores or divides is reduced to 32 bits (`toInt32`):
  the sums and differences of packet sizes in `Put` and `Get`, and the product
  `100 * m_iDataSize` of `GetLevel`.
* Time stamps are `double` in the source; they are modelled by rationals and
  are only copied and compared.  `DVD_NOPTS_VALUE` is the sentinel "no time
  stamp".  The one arithmetic expression on time stamps, the `round_int` call
  of `GetLevel`, is evaluated in double precision and converted to `int` by a
  helper that is not part of this file: its `int` value, or the fact that it
  yields none, is a parameter (`round_span`) of `GetLevel`, and nothing is
  assumed about it.
* Reference counts (`Acquire` / `Release`) are not modelled, except that a call
  of `Release` on a null pointer does not return (the result `none` of `Put`).
* `WaitUntilEmpty` is modelled up to the return of its `Put`; the wait on the
  barrier needs a consumer thread and does not touch the queue.
-/

namespace DVDMessageQueue

/-! ## Collaborators declared outside DVDMessageQueue.cpp -/

/-- Modelled from the spec: the message kind enumeration `CDVDMsg::Message`
(declared in DVDMessage.h).  The queue treats kinds as opaque tags except for
the wildcard `NONE`, the data packet kind `DEMUXER_PACKET` and the barrier kind
`GENERAL_SYNCHRONIZE`. -/
inductive Message where
  | NONE
  | DEMUXER_PACKET
  | GENERAL_SYNCHRONIZE
  | OTHER (tag : Nat)
  deriving DecidableEq, Repr

/-- Modelled from the spec: the sentinel "no time stamp" of DVDClock.h.  The
queue only compares time stamps with it; no theorem depends on its value. -/
def DVD_NOPTS_VALUE : ℚ := -4503599627370496

/-- Modelled from the spec: the number of time stamp units in one second
(DVDClock.h). -/
def DVD_TIME_BASE : ℚ := 1000000

/-- Modelled from the spec: the `round` of the formula of the level, rounding
of an exact value to the nearest integer, halves upwards, without a bound on
the result.  It is not the helper `MathUtils::round_int` of the source, whose
result is the argument `round_span` of `GetLevel`. -/
def round_nearest (x : ℚ) : Int := ⌊x + 1 / 2⌋

/-- Modelled from the spec: the payload of a data message, the members `iSize`,
`pts` and `dts` of `DemuxPacket` (DVDDemuxPacket.h). -/
structure DemuxPacket where
  iSize : Int
  pts : ℚ
  dts : ℚ
  deriving DecidableEq

/-- Modelled from the spec: the observable shape of a message object
(DVDMessage.h): its identity `ptr`, its kind `m_message` and, for a demuxer
packet message, the result of `GetPacket()` (`none` is the null pointer). -/
structure CDVDMsg where
  ptr : Nat
  m_message : Message
  packet : Option DemuxPacket
  deriving DecidableEq

/-- Modelled from the spec: `CDVDMsg::IsType`, the comparison of the kind tag. -/
def CDVDMsg.IsType (msg : CDVDMsg) (type : Message) : Bool :=
  msg.m_message == type

/-- Modelled from the spec: the result of
`((CDVDMsgDemuxerPacket*)pMsg)->GetPacket()`. -/
def CDVDMsg.GetPacket (msg : CDVDMsg) : Option DemuxPacket :=
  msg.packet

/-- Modelled from the spec: the return codes of `Put` and `Get`
(`MsgQueueReturnCode` of DVDMessageQueue.h). -/
inductive MsgQueueReturnCode where
  | MSGQ_OK
  | MSGQ_TIMEOUT
  | MSGQ_ABORT
  | MSGQ_NOT_INITIALIZED
  | MSGQ_INVALID_MSG
  | MSGQ_OUT_OF_MEMORY
  deriving DecidableEq, Repr

open MsgQueueReturnCode

/-- One entry of `m_list`. -/
structure DVDMessageListItem where
  message : CDVDMsg
  priority : Int
  deriving DecidableEq

/-- The value of an `int` expression after reduction to 32 bits (two's
complement). -/
def toInt32 (x : Int) : Int := (x + 2147483648) % 4294967296 - 2147483648

/-- The largest `int`. -/
def INT_MAX : Int := 2147483647

/-- The smallest `int`. -/
def INT_MIN : Int := -2147483648

/-! ## The queue -/

/-- The member variables of `CDVDMessageQueue`. -/
structure CDVDMessageQueue where
  m_list : List DVDMessageListItem
  m_bAbortRequest : Bool
  m_bInitialized : Bool
  m_iDataSize : Int
  m_TimeFront : ℚ
  m_TimeBack : ℚ
  m_iMaxDataSize : Int
  deriving DecidableEq

/-- The member `m_TimeSize`: the constructor sets it to `1.0 / 4.0` (4 seconds)
and no function of DVDMessageQueue.cpp assigns it again. -/
def m_TimeSize : ℚ := 1 / 4

/-- The constructor `CDVDMessageQueue::CDVDMessageQueue` (lines 28-38). -/
def construct : CDVDMessageQueue :=
  { m_list := []
    m_bAbortRequest := false
    m_bInitialized := false
    m_iDataSize := 0
    m_TimeFront := DVD_NOPTS_VALUE
    m_TimeBack := DVD_NOPTS_VALUE
    m_iMaxDataSize := 0 }

/-- Modelled from the spec: the setter of the configured capacity
(`SetMaxDataSize` of DVDMessageQueue.h). -/
def SetMaxDataSize (q : CDVDMessageQueue) (iMaxDataSize : Int) : CDVDMessageQueue :=
  { q with m_iMaxDataSize := iMaxDataSize }

/-- The function `CDVDMessageQueue::Init` (lines 46-53). -/
def Init (q : CDVDMessageQueue) : CDVDMessageQueue :=
  { q with
    m_iDataSize := 0
    m_bAbortRequest := false
    m_bInitialized := true
    m_TimeBack := DVD_NOPTS_VALUE
    m_TimeFront := DVD_NOPTS_VALUE }

/-- The erase loop of `Flush` (lines 59-65), front to back. -/
def flushLoop (type : Message) : List DVDMessageListItem → List DVDMessageListItem
  | [] => []
  | it :: rest =>
    if it.message.IsType type || type == Message.NONE then flushLoop type rest
    else it :: flushLoop type rest

/-- The function `CDVDMessageQueue::Flush` (lines 55-73). -/
def Flush (q : CDVDMessageQueue) (type : Message) : CDVDMessageQueue :=
  let q1 := { q with m_list := flushLoop type q.m_list }
  if type == Message.DEMUXER_PACKET || type == Message.NONE then
    { q1 with
      m_iDataSize := 0
      m_TimeBack := DVD_NOPTS_VALUE
      m_TimeFront := DVD_NOPTS_VALUE }
  else q1

/-- The function `CDVDMessageQueue::Abort` (lines 75-82). -/
def Abort (q : CDVDMessageQueue) : CDVDMessageQueue :=
  { q with m_bAbortRequest := true }

/-- The function `CDVDMessageQueue::End` (lines 84-93). -/
def End (q : CDVDMessageQueue) : CDVDMessageQueue :=
  let q1 := Flush q Message.NONE
  { q1 with
    m_bInitialized := false
    m_iDataSize := 0
    m_bAbortRequest := false }

/-- The search loop and the `insert` of `Put` (lines 112-119): the new item goes
in front of the first item whose priority is not below its own. -/
def insertItem (item : DVDMessageListItem) : List DVDMessageListItem → List DVDMessageListItem
  | [] => [item]
  | it :: rest =>
    if item.priority ≤ it.priority then item :: it :: rest
    else it :: insertItem item rest

/-- The function `CDVDMessageQueue::Put` (lines 96-142).  `pMsg = none` is the
null pointer.  The result `none` is the call `pMsg->Release()` on a null
pointer, which the uninitialized branch makes before the null check. -/
def Put (q : CDVDMessageQueue) (pMsg : Option CDVDMsg) (priority : Int) :
    Option (MsgQueueReturnCode × CDVDMessageQueue) :=
  if !q.m_bInitialized then
    match pMsg with
    | none => none
    | some _ => some (MSGQ_NOT_INITIALIZED, q)
  else
    match pMsg with
    | none => some (MSGQ_INVALID_MSG, q)
    | some msg =>
      let q1 := { q with m_list := insertItem ⟨msg, priority⟩ q.m_list }
      if msg.IsType Message.DEMUXER_PACKET && priority == 0 then
        match msg.GetPacket with
        | some packet =>
          let front :=
            if packet.dts ≠ DVD_NOPTS_VALUE then packet.dts
            else if packet.pts ≠ DVD_NOPTS_VALUE then packet.pts
            else q1.m_TimeFront
          let back := if q1.m_TimeBack = DVD_NOPTS_VALUE then front else q1.m_TimeBack
          some (MSGQ_OK,
            { q1 with
              m_iDataSize := toInt32 (q1.m_iDataSize + packet.iSize)
              m_TimeFront := front
              m_TimeBack := back })
        | none => some (MSGQ_OK, q1)
      else some (MSGQ_OK, q1)

/-- What a call of `Get` leaves behind: the return code, `*pMsg`, the in-out
argument `priority` and the queue. -/
structure GetResult where
  ret : MsgQueueReturnCode
  pMsg : Option CDVDMsg
  priority : Int
  queue : CDVDMessageQueue
  deriving DecidableEq

/-- The exit of `Get` after a `break` (lines 202-205): the abort flag is tested
once more before `ret` is returned. -/
def getExit (ret : MsgQueueReturnCode) (pMsg : Option CDVDMsg) (priority : Int)
    (q : CDVDMessageQueue) : GetResult :=
  if q.m_bAbortRequest then ⟨MSGQ_ABORT, pMsg, priority, q⟩
  else ⟨ret, pMsg, priority, q⟩

/-- The branches of the loop body of `Get` taken when no entry is eligible
(lines 184-199).  With a zero timeout the loop breaks with `MSGQ_TIMEOUT`.
Otherwise the call waits on the event it has just reset; no other thread runs,
nobody sets the event, `WaitMSec` fails and line 196 returns `MSGQ_TIMEOUT`. -/
def getNoEntry (q : CDVDMessageQueue) (iTimeoutInMilliSeconds : Nat) (priority : Int) :
    GetResult :=
  if iTimeoutInMilliSeconds = 0 then getExit MSGQ_TIMEOUT none priority q
  else ⟨MSGQ_TIMEOUT, none, priority, q⟩

/-- The function `CDVDMessageQueue::Get` (lines 144-206), called with no other
thread running, so that the loop body is entered at most once. -/
def Get (q : CDVDMessageQueue) (iTimeoutInMilliSeconds : Nat) (priority : Int) : GetResult :=
  if !q.m_bInitialized then ⟨MSGQ_NOT_INITIALIZED, none, priority, q⟩
  else if q.m_bAbortRequest then getExit MSGQ_TIMEOUT none priority q
  else
    match q.m_list.getLast? with
    | some item =>
      if item.priority ≥ priority then
        let q1 :=
          if item.message.IsType Message.DEMUXER_PACKET && item.priority == 0 then
            match item.message.GetPacket with
            | some packet =>
              { q with
                m_iDataSize := toInt32 (q.m_iDataSize - packet.iSize)
                m_TimeBack :=
                  if packet.dts ≠ DVD_NOPTS_VALUE then packet.dts
                  else if packet.pts ≠ DVD_NOPTS_VALUE then packet.pts
                  else q.m_TimeBack }
            | none => q
          else q
        getExit MSGQ_OK (some item.message) item.priority { q1 with m_list := q1.m_list.dropLast }
      else getNoEntry q iTimeoutInMilliSeconds priority
    | none => getNoEntry q iTimeoutInMilliSeconds priority

/-- The function `CDVDMessageQueue::GetPacketCount` (lines 208-223). -/
def GetPacketCount (q : CDVDMessageQueue) (type : Message) : Nat :=
  if !q.m_bInitialized then 0
  else (q.m_list.filter (fun it => it.message.IsType type)).length

/-- The function `CDVDMessageQueue::IsDataBased` (lines 268-273). -/
def IsDataBased (q : CDVDMessageQueue) : Bool :=
  decide (q.m_TimeBack = DVD_NOPTS_VALUE) ||
  decide (q.m_TimeFront = DVD_NOPTS_VALUE) ||
  decide (q.m_TimeFront ≤ q.m_TimeBack)

/-- The function `CDVDMessageQueue::GetLevel` (lines 234-256).  The argument
`round_span` stands for the expression
`MathUtils::round_int(100.0 * m_TimeSize * (m_TimeFront - m_TimeBack) / DVD_TIME_BASE)`
of line 246, which the source computes in double precision and converts with a
helper of utils/MathUtils.h: for `m_TimeFront` and `m_TimeBack` it gives the
`int` that the expression yields, or `none` where the helper does not return.
The result `none` of `GetLevel` is a call that does not return a level: an
integer division of line 244 that traps (by zero, or of the smallest `int` by
-1), or no value at line 246. -/
def GetLevel (round_span : ℚ → ℚ → Option Int) (q : CDVDMessageQueue) : Option Int :=
  if q.m_iDataSize > q.m_iMaxDataSize then some 100
  else if q.m_iDataSize = 0 then some 0
  else if IsDataBased q then
    if q.m_iMaxDataSize = 0 then none
    else if toInt32 (100 * q.m_iDataSize) = -2147483648 ∧ q.m_iMaxDataSize = -1 then none
    else some (min 100 (Int.tdiv (toInt32 (100 * q.m_iDataSize)) q.m_iMaxDataSize))
  else
    match round_span q.m_TimeFront q.m_TimeBack with
    | none => none
    | some span =>
      let level : Int := min 100 span
      if level = 0 ∧ q.m_iDataSize ≠ 0 then some 1
      else some level

/-- The argument of `round_int` in line 246 evaluated without rounding errors,
and rounded to the nearest integer without a bound. -/
def exactSpan (time_front time_back : ℚ) : Int :=
  round_nearest (100 * m_TimeSize * (time_front - time_back) / DVD_TIME_BASE)

/-- A line 246 that yields the exactly rounded value at every pair of time
stamps: what the source computes wherever its double arithmetic is exact and
the rounded value is an `int`. -/
def exactRound (time_front time_back : ℚ) : Option Int :=
  some (exactSpan time_front time_back)

/-! ## Sequences of calls -/

/-- The entry list sorted ascending by priority, front to back. -/
def SortedAsc (l : List DVDMessageListItem) : Prop :=
  l.Pairwise (fun a b => a.priority ≤ b.priority)

/-- A sequence of `Put` calls of non-null messages, each of which returns
`MSGQ_OK`; `none` when a call fails. -/
def putAll (q : CDVDMessageQueue) : List (CDVDMsg × Int) → Option CDVDMessageQueue
  | [] => some q
  | x :: xs =>
    match Put q (some x.1) x.2 with
    | some (MSGQ_OK, q1) => putAll q1 xs
    | _ => none

/-- Repeated `Get` calls with a zero timeout, one for each requested minimum
priority; the result lists the messages handed out with the priority reported
back, and the queue left behind. -/
def drain (q : CDVDMessageQueue) : List Int → List (CDVDMsg × Int) × CDVDMessageQueue
  | [] => ([], q)
  | p :: ps =>
    let r := Get q 0 p
    match r.ret, r.pMsg with
    | MSGQ_OK, some msg => ((msg, r.priority) :: (drain r.queue ps).1, (drain r.queue ps).2)
    | _, _ => drain r.queue ps

/-- Every call of a drain asks for a minimum priority at or below the priority
of every entry resident at the time of the call. -/
def admissible (q : CDVDMessageQueue) : List Int → Prop
  | [] => True
  | p :: ps => (∀ it ∈ q.m_list, p ≤ it.priority) ∧ admissible (Get q 0 p).queue ps

/-- The order relation of a sort by descending priority. -/
def prioGE (a b : CDVDMsg × Int) : Bool := decide (b.2 ≤ a.2)

/-- The byte size with which an entry takes part in the accounting of `Put` and
`Get`: the `iSize` of its packet when the entry is a demuxer packet message of
priority 0 with a non-null packet, and nothing otherwise. -/
def accountedSize (it : DVDMessageListItem) : Int :=
  if it.message.IsType Message.DEMUXER_PACKET && it.priority == 0 then
    match it.message.GetPacket with
    | some packet => packet.iSize
    | none => 0
  else 0

/-- The sum of the byte sizes of the resident priority-0 data entries. -/
def residentBytes (l : List DVDMessageListItem) : Int :=
  (l.map accountedSize).sum

/-- The accounting predicate: `m_iDataSize` is the sum of the byte sizes of the
resident priority-0 data entries. -/
def ByteInv (q : CDVDMessageQueue) : Prop :=
  q.m_iDataSize = residentBytes q.m_list

/-- The accounting as the source keeps it in its 32-bit `int`: `m_iDataSize` is
the sum of the byte sizes of the resident priority-0 data entries reduced to
32 bits. -/
def ByteInv32 (q : CDVDMessageQueue) : Prop :=
  q.m_iDataSize = toInt32 (residentBytes q.m_list)

instance (q : CDVDMessageQueue) : Decidable (ByteInv q) :=
  inferInstanceAs (Decidable (q.m_iDataSize = residentBytes q.m_list))

/-- A call on priority-0 data entries: the put of a data packet message at
priority 0, or a get. -/
inductive DataCall where
  | put (ptr : Nat) (packet : DemuxPacket)
  | get (iTimeoutInMilliSeconds : Nat) (priority : Int)

/-- A sequence of calls on priority-0 data entries; `none` when a call does not
return. -/
def runData (q : CDVDMessageQueue) : List DataCall → Option CDVDMessageQueue
  | [] => some q
  | DataCall.put ptr packet :: cs =>
    match Put q (some ⟨ptr, Message.DEMUXER_PACKET, some packet⟩) 0 with
    | some r => runData r.2 cs
    | none => none
  | DataCall.get t p :: cs => runData (Get q t p).queue cs

/-! ## Auxiliary definitions and example states -/

/-- The entry list built by a sequence of insertions. -/
def insertAll (l : List DVDMessageListItem) (xs : List (CDVDMsg × Int)) :
    List DVDMessageListItem :=
  xs.foldl (fun acc x => insertItem ⟨x.1, x.2⟩ acc) l

/-- An entry that is a demuxer packet message of priority 0 with a packet. -/
def isDataEntry (it : DVDMessageListItem) : Prop :=
  it.priority = 0 ∧ it.message.m_message = Message.DEMUXER_PACKET ∧ it.message.packet ≠ none

/-- A data packet message of the given identity and size without time stamps. -/
def dataMsg (ptr : Nat) (iSize : Int) : CDVDMsg :=
  ⟨ptr, Message.DEMUXER_PACKET, some ⟨iSize, DVD_NOPTS_VALUE, DVD_NOPTS_VALUE⟩⟩

/-- A control message of the given identity. -/
def ctrlMsg (ptr : Nat) : CDVDMsg :=
  ⟨ptr, Message.OTHER 0, none⟩

/-- The queue after the puts of `abcPuts`. -/
def abcQueue : CDVDMessageQueue :=
  { m_list := [⟨dataMsg 3 500, 0⟩, ⟨dataMsg 2 300, 0⟩, ⟨dataMsg 1 200, 0⟩, ⟨ctrlMsg 9, 1⟩]
    m_bAbortRequest := false
    m_bInitialized := true
    m_iDataSize := 1000
    m_TimeFront := DVD_NOPTS_VALUE
    m_TimeBack := DVD_NOPTS_VALUE
    m_iMaxDataSize := 0 }

/-- Three data packets A, B, C put at priority 0, and a control message put at
priority 1 after A. -/
def abcPuts : List (CDVDMsg × Int) :=
  [(dataMsg 1 200, 0), (ctrlMsg 9, 1), (dataMsg 2 300, 0), (dataMsg 3 500, 0)]

/-- A queue holding one priority-0 data packet of 200 bytes, accounted for. -/
def oneDataQueue : CDVDMessageQueue :=
  { m_list := [⟨dataMsg 1 200, 0⟩]
    m_bAbortRequest := false
    m_bInitialized := true
    m_iDataSize := 200
    m_TimeFront := DVD_NOPTS_VALUE
    m_TimeBack := DVD_NOPTS_VALUE
    m_iMaxDataSize := 1000 }

/-- Two packets of 250 bytes with decode time stamps 0 s and 1 s, put at
priority 0 into a queue of capacity 1000. -/
def timedQueue : CDVDMessageQueue :=
  { m_list := [⟨⟨2, Message.DEMUXER_PACKET, some ⟨250, DVD_NOPTS_VALUE, 1000000⟩⟩, 0⟩,
               ⟨⟨1, Message.DEMUXER_PACKET, some ⟨250, DVD_NOPTS_VALUE, 0⟩⟩, 0⟩]
    m_bAbortRequest := false
    m_bInitialized := true
    m_iDataSize := 500
    m_TimeFront := 1000000
    m_TimeBack := 0
    m_iMaxDataSize := 1000 }

/-- One packet of 30000000 bytes without time stamps in a queue of capacity
40000000. -/
def bigQueue : CDVDMessageQueue :=
  { m_list := [⟨dataMsg 1 30000000, 0⟩]
    m_bAbortRequest := false
    m_bInitialized := true
    m_iDataSize := 30000000
    m_TimeFront := DVD_NOPTS_VALUE
    m_TimeBack := DVD_NOPTS_VALUE
    m_iMaxDataSize := 40000000 }

/-- Packets of 200, 300 and 500 bytes without time stamps, put in this order at
priority 0 into a queue of capacity 1000. -/
def scenarioQueue : CDVDMessageQueue :=
  { m_list := [⟨dataMsg 3 500, 0⟩, ⟨dataMsg 2 300, 0⟩, ⟨dataMsg 1 200, 0⟩]
    m_bAbortRequest := false
    m_bInitialized := true
    m_iDataSize := 1000
    m_TimeFront := DVD_NOPTS_VALUE
    m_TimeBack := DVD_NOPTS_VALUE
    m_iMaxDataSize := 1000 }

/-- The queue `scenarioQueue` after one `Get`. -/
def scenarioQueueAfterGet : CDVDMessageQueue :=
  { scenarioQueue with
    m_list := [⟨dataMsg 3 500, 0⟩, ⟨dataMsg 2 300, 0⟩]
    m_iDataSize := 800 }

/-- One packet of 1 byte without time stamps in a queue of capacity 1000. -/
def tinyQueue : CDVDMessageQueue :=
  { m_list := [⟨dataMsg 1 1, 0⟩]
    m_bAbortRequest := false
    m_bInitialized := true
    m_iDataSize := 1
    m_TimeFront := DVD_NOPTS_VALUE
    m_TimeBack := DVD_NOPTS_VALUE
    m_iMaxDataSize := 1000 }

/-- The time stamp that `Put` and `Get` take from a packet: the decode time
stamp, else the presentation time stamp. -/
def packetTime (packet : DemuxPacket) : ℚ :=
  if packet.dts ≠ DVD_NOPTS_VALUE then packet.dts else packet.pts

/-- A packet that carries a decode or a presentation time stamp. -/
def timestamped (packet : DemuxPacket) : Prop :=
  packet.dts ≠ DVD_NOPTS_VALUE ∨ packet.pts ≠ DVD_NOPTS_VALUE

/-- The puts of a sequence of data packets at priority 0. -/
def dataPuts (packets : List (Nat × DemuxPacket)) : List (CDVDMsg × Int) :=
  packets.map (fun x => (⟨x.1, Message.DEMUXER_PACKET, some x.2⟩, 0))

/-- A call of `Put`, `Get` or `Flush`. -/
inductive QueueCall where
  | put (pMsg : Option CDVDMsg) (priority : Int)
  | get (iTimeoutInMilliSeconds : Nat) (priority : Int)
  | flush (type : Message)

/-- A sequence of `Put`, `Get` and `Flush` calls; `none` when a call does not
return. -/
def runCalls (q : CDVDMessageQueue) : List QueueCall → Option CDVDMessageQueue
  | [] => some q
  | QueueCall.put pMsg priority :: cs =>
    match Put q pMsg priority with
    | some r => runCalls r.2 cs
    | none => none
  | QueueCall.get t p :: cs => runCalls (Get q t p).queue cs
  | QueueCall.flush type :: cs => runCalls (Flush q type) cs

/-- Modelled from the spec: the default value of the argument `priority` of
`Put` (declared in DVDMessageQueue.h); the interface of the spec lists
`put(message, priority=0)`. -/
def Put_default_priority : Int := 0

/-- Modelled from the spec: the barrier message `CDVDMsgGeneralSynchronize`
(DVDMessage.h) built by `WaitUntilEmpty`, a control message of the barrier kind
without a packet. -/
def syncMsg (ptr : Nat) : CDVDMsg :=
  ⟨ptr, Message.GENERAL_SYNCHRONIZE, none⟩

/-- The function `CDVDMessageQueue::WaitUntilEmpty` (lines 225-232) up to the
return of its `Put`: the barrier is put with one argument, hence with the
default priority.  The wait on the barrier that follows does not touch the
queue. -/
def WaitUntilEmpty (q : CDVDMessageQueue) (ptr : Nat) :
    Option (MsgQueueReturnCode × CDVDMessageQueue) :=
  Put q (some (syncMsg ptr)) Put_default_priority

/-- The states in which `GetLevel` reaches the division of line 244. -/
def reachesDivision (q : CDVDMessageQueue) : Prop :=
  ¬ q.m_iDataSize > q.m_iMaxDataSize ∧ q.m_iDataSize ≠ 0 ∧ IsDataBased q = true

/-- One packet of 20000000 bytes without time stamps in a queue of capacity
40000000. -/
def halfQueue : CDVDMessageQueue :=
  { m_list := [⟨dataMsg 1 20000000, 0⟩]
    m_bAbortRequest := false
    m_bInitialized := true
    m_iDataSize := 20000000
    m_TimeFront := DVD_NOPTS_VALUE
    m_TimeBack := DVD_NOPTS_VALUE
    m_iMaxDataSize := 40000000 }

/-- A queue without capacity whose occupancy is -1 (one packet of -1 bytes). -/
def minusOneQueue : CDVDMessageQueue :=
  { m_list := [⟨dataMsg 1 (-1), 0⟩]
    m_bAbortRequest := false
    m_bInitialized := true
    m_iDataSize := -1
    m_TimeFront := DVD_NOPTS_VALUE
    m_TimeBack := DVD_NOPTS_VALUE
    m_iMaxDataSize := 0 }

/-- The time stamp of the packet of an entry. -/
def entryTime (it : DVDMessageListItem) : ℚ :=
  match it.message.packet with
  | some packet => packetTime packet
  | none => DVD_NOPTS_VALUE

/-- An entry that is a demuxer packet message of priority 0 whose packet carries
a time stamp. -/
def isTimedEntry (it : DVDMessageListItem) : Prop :=
  it.priority = 0 ∧ it.message.m_message = Message.DEMUXER_PACKET ∧
    ∃ packet, it.message.packet = some packet ∧ timestamped packet

/-- One packet of 200 bytes with decode time stamp 3 s. -/
def onePacket : List (Nat × DemuxPacket) :=
  [(1, ⟨200, DVD_NOPTS_VALUE, 3000000⟩)]

/-- The entry that the put of a data packet at priority 0 inserts. -/
def dataEntry (x : Nat × DemuxPacket) : DVDMessageListItem :=
  ⟨⟨x.1, Message.DEMUXER_PACKET, some x.2⟩, 0⟩

/-- The queue `oneDataQueue` after `WaitUntilEmpty` has put its barrier. -/
def barrierQueue : CDVDMessageQueue :=
  { oneDataQueue with m_list := [⟨syncMsg 7, 0⟩, ⟨dataMsg 1 200, 0⟩] }

/-- A queue holding one priority-0 data packet of 2000000000 bytes, accounted
for. -/
def twoGigQueue : CDVDMessageQueue :=
  { m_list := [⟨dataMsg 1 2000000000, 0⟩]
    m_bAbortRequest := false
    m_bInitialized := true
    m_iDataSize := 2000000000
    m_TimeFront := DVD_NOPTS_VALUE
    m_TimeBack := DVD_NOPTS_VALUE
    m_iMaxDataSize := 0 }

/-- The queue `twoGigQueue` after the put of a second packet of 2000000000
bytes: the 32-bit sum is negative. -/
def fourGigQueue : CDVDMessageQueue :=
  { twoGigQueue with
    m_list := [⟨dataMsg 2 2000000000, 0⟩, ⟨dataMsg 1 2000000000, 0⟩]
    m_iDataSize := -294967296 }

/-- Two packets of 1 byte with decode time stamps 0 and 100000000000000 (a span
of 100000000 seconds), put at priority 0 into a queue of capacity 1000. -/
def hugeSpanQueue : CDVDMessageQueue :=
  { m_list := [⟨⟨2, Message.DEMUXER_PACKET, some ⟨1, DVD_NOPTS_VALUE, 100000000000000⟩⟩, 0⟩,
               ⟨⟨1, Message.DEMUXER_PACKET, some ⟨1, DVD_NOPTS_VALUE, 0⟩⟩, 0⟩]
    m_bAbortRequest := false
    m_bInitialized := true
    m_iDataSize := 2
    m_TimeFront := 100000000000000
    m_TimeBack := 0
    m_iMaxDataSize := 1000 }

/-! ## Lemmas on lists -/

theorem filter_key_eq_nil_of_forall {α : Type} (k : α → Int) (p : Int) (l : List α)
    (h : ∀ a ∈ l, k a ≠ p) : l.filter (fun a => k a == p) = [] := by
  induction l with
  | nil => rfl
  | cons a t ih =>
    have ha : k a ≠ p := h a (List.mem_cons_self _ _)
    have ht : ∀ b ∈ t, k b ≠ p := fun b hb => h b (List.mem_cons_of_mem _ hb)
    simp [List.filter_cons, ha, ih ht]

/-- Two lists sorted by descending key that agree on every key class are
equal. -/
theorem eq_of_sortedDesc_of_filter {α : Type} (k : α → Int) :
    ∀ (A B : List α), A.Pairwise (fun a b => k b ≤ k a) → B.Pairwise (fun a b => k b ≤ k a) →
      (∀ p : Int, A.filter (fun a => k a == p) = B.filter (fun a => k a == p)) → A = B := by
  intro A
  induction A with
  | nil =>
    intro B _ _ h
    cases B with
    | nil => rfl
    | cons b t =>
      have := h (k b)
      simp [List.filter_cons] at this
  | cons a A ih =>
    intro B hA hB h
    cases B with
    | nil =>
      have := h (k a)
      simp [List.filter_cons] at this
    | cons b B =>
      rw [List.pairwise_cons] at hA hB
      have hab : k a = k b := by
        have h1 : a ∈ (b :: B).filter (fun x => k x == k a) := by
          rw [← h (k a)]; simp
        have h2 : b ∈ (a :: A).filter (fun x => k x == k b) := by
          rw [h (k b)]; simp
        have h1m : a ∈ b :: B := (List.mem_filter.mp h1).1
        have h2m : b ∈ a :: A := (List.mem_filter.mp h2).1
        have le1 : k a ≤ k b := by
          rcases List.mem_cons.mp h1m with e | m
          · rw [e]
          · exact hB.1 a m
        have le2 : k b ≤ k a := by
          rcases List.mem_cons.mp h2m with e | m
          · rw [e]
          · exact hA.1 b m
        omega
      have hhead := h (k a)
      have hb : (k b == k a) = true := by simp [hab]
      simp only [List.filter_cons, beq_self_eq_true, if_true, hb] at hhead
      have e1 : a = b := (List.cons.inj hhead).1
      subst e1
      have htail : ∀ p : Int, A.filter (fun x => k x == p) = B.filter (fun x => k x == p) := by
        intro p
        have hp := h p
        by_cases c : k a = p
        · have c2 : (k a == p) = true := by simp [c]
          simp only [List.filter_cons, c2, if_true] at hp
          exact (List.cons.inj hp).2
        · have c2 : (k a == p) = false := by simp [c]
          simpa only [List.filter_cons, c2, Bool.false_eq_true, if_false] using hp
      rw [ih B hA.2 hB.2 htail]

theorem prioGE_trans (a b c : CDVDMsg × Int) :
    prioGE a b = true → prioGE b c = true → prioGE a c = true := by
  simp only [prioGE, decide_eq_true_eq]
  intro h1 h2
  exact le_trans h2 h1

theorem prioGE_total (a b : CDVDMsg × Int) : (prioGE a b || prioGE b a) = true := by
  simp only [prioGE, Bool.or_eq_true, decide_eq_true_eq]
  exact le_total _ _

/-- The library merge sort keeps every priority class in its input order. -/
theorem filter_mergeSort_prioGE (xs : List (CDVDMsg × Int)) (p : Int) :
    (xs.mergeSort prioGE).filter (fun a => a.2 == p) = xs.filter (fun a => a.2 == p) := by
  have hc : (xs.filter (fun a => a.2 == p)).Pairwise (fun a b => prioGE a b = true) := by
    rw [List.pairwise_iff_forall_sublist]
    intro a b hab
    have ha : a ∈ xs.filter (fun a => a.2 == p) := hab.subset (by simp)
    have hb : b ∈ xs.filter (fun a => a.2 == p) := hab.subset (by simp)
    have ha2 := (List.mem_filter.mp ha).2
    have hb2 := (List.mem_filter.mp hb).2
    simp only [beq_iff_eq] at ha2 hb2
    simp [prioGE, ha2, hb2]
  have hsub : List.Sublist (xs.filter (fun a => a.2 == p)) (xs.mergeSort prioGE) :=
    List.sublist_mergeSort prioGE_trans prioGE_total hc (List.filter_sublist _)
  have hsub2 := hsub.filter (fun a => a.2 == p)
  rw [List.filter_filter] at hsub2
  simp only [Bool.and_self] at hsub2
  have hlen : ((xs.mergeSort prioGE).filter (fun a => a.2 == p)).length
      = (xs.filter (fun a => a.2 == p)).length :=
    ((List.mergeSort_perm xs prioGE).filter _).length_eq
  exact (hsub2.eq_of_length hlen.symm).symm

/-! ## Lemmas on the entry list -/

theorem mem_insertItem (item x : DVDMessageListItem) (l : List DVDMessageListItem) :
    x ∈ insertItem item l ↔ x = item ∨ x ∈ l := by
  induction l with
  | nil => simp [insertItem]
  | cons it rest ih =>
    unfold insertItem
    split
    · simp
    · simp only [List.mem_cons, ih]
      tauto

theorem length_insertItem (item : DVDMessageListItem) (l : List DVDMessageListItem) :
    (insertItem item l).length = l.length + 1 := by
  induction l with
  | nil => simp [insertItem]
  | cons it rest ih =>
    unfold insertItem
    split
    · simp
    · simp [ih]

/-- The insertion of `Put` keeps a sorted list sorted. -/
theorem sortedAsc_insertItem (item : DVDMessageListItem) (l : List DVDMessageListItem)
    (h : SortedAsc l) : SortedAsc (insertItem item l) := by
  unfold SortedAsc at *
  induction l with
  | nil => simp [insertItem]
  | cons it rest ih =>
    rw [List.pairwise_cons] at h
    unfold insertItem
    split
    · rename_i hle
      rw [List.pairwise_cons]
      refine ⟨?_, List.pairwise_cons.mpr h⟩
      intro b hb
      rcases List.mem_cons.mp hb with e | m
      · rw [e]; exact hle
      · exact le_trans hle (h.1 b m)
    · rename_i hnle
      rw [List.pairwise_cons]
      refine ⟨?_, ih h.2⟩
      intro b hb
      rcases (mem_insertItem item b rest).mp hb with e | m
      · rw [e]; omega
      · exact h.1 b m

/-- The new item is the first of its priority class; the other classes are
untouched. -/
theorem filter_insertItem (item : DVDMessageListItem) (p : Int) (l : List DVDMessageListItem) :
    (insertItem item l).filter (fun a => a.priority == p)
      = (if item.priority = p then [item] else []) ++ l.filter (fun a => a.priority == p) := by
  induction l with
  | nil =>
    by_cases c : item.priority = p <;> simp [insertItem, List.filter_cons, c]
  | cons it rest ih =>
    unfold insertItem
    split
    · by_cases c : item.priority = p <;> simp [List.filter_cons, c]
    · rename_i hnle
      rw [List.filter_cons, ih]
      by_cases c : item.priority = p
      · have hne : ¬ it.priority = p := by omega
        simp [List.filter_cons, c, hne]
      · simp [List.filter_cons, c]

/-- The erase loop of `Flush` is a filter. -/
theorem flushLoop_eq_filter (type : Message) (l : List DVDMessageListItem) :
    flushLoop type l
      = l.filter (fun it => !(it.message.IsType type || type == Message.NONE)) := by
  induction l with
  | nil => rfl
  | cons it rest ih =>
    unfold flushLoop
    by_cases c : (it.message.IsType type || type == Message.NONE) = true
    · simp only [c, if_true, List.filter_cons, Bool.not_true, Bool.false_eq_true, if_false]
      exact ih
    · simp only [c, if_false, List.filter_cons]
      simp only [Bool.not_eq_true] at c
      simp only [c, Bool.not_false, if_true, ih, Bool.false_eq_true, if_false]

theorem sortedAsc_filter (f : DVDMessageListItem → Bool) (l : List DVDMessageListItem)
    (h : SortedAsc l) : SortedAsc (l.filter f) :=
  List.Pairwise.sublist (List.filter_sublist l) h

theorem sortedAsc_dropLast (l : List DVDMessageListItem) (h : SortedAsc l) :
    SortedAsc l.dropLast :=
  List.Pairwise.sublist (List.dropLast_sublist l) h

/-! ## Lemmas on `Put` and `Get` -/

/-- The entry list after any call of `Put`. -/
theorem Put_list (q q1 : CDVDMessageQueue) (pMsg : Option CDVDMsg) (priority : Int)
    (r : MsgQueueReturnCode) (h : Put q pMsg priority = some (r, q1)) :
    (r = MSGQ_OK ∧ ∃ msg, pMsg = some msg ∧ q.m_bInitialized = true ∧
        q1.m_list = insertItem ⟨msg, priority⟩ q.m_list)
      ∨ (r ≠ MSGQ_OK ∧ q1 = q) := by
  unfold Put at h
  cases hi : q.m_bInitialized <;> cases pMsg with
  | none => simp [hi] at h <;> (try exact Or.inr ⟨by rw [← h.1]; decide, h.2.symm⟩)
  | some msg =>
    simp only [hi, Bool.not_false, Bool.not_true, if_true, Bool.false_eq_true, if_false,
      Option.some.injEq, Prod.mk.injEq] at h
    first
    | exact Or.inr ⟨by rw [← h.1]; decide, h.2.symm⟩
    | (left
       split at h
       · split at h
         · simp only [Option.some.injEq, Prod.mk.injEq] at h
           exact ⟨h.1.symm, msg, rfl, rfl, by rw [← h.2]⟩
         · simp only [Option.some.injEq, Prod.mk.injEq] at h
           exact ⟨h.1.symm, msg, rfl, rfl, by rw [← h.2]⟩
       · simp only [Option.some.injEq, Prod.mk.injEq] at h
         exact ⟨h.1.symm, msg, rfl, rfl, by rw [← h.2]⟩)

/-- A call of `Put` with a non-null message returns. -/
theorem Put_some_isSome (q : CDVDMessageQueue) (msg : CDVDMsg) (priority : Int) :
    (Put q (some msg) priority).isSome = true := by
  unfold Put
  cases q.m_bInitialized
  · rfl
  · simp only [Bool.not_true, Bool.false_eq_true, if_false]
    split
    · split <;> rfl
    · rfl

/-- On an initialized queue `Put` of a non-null message succeeds. -/
theorem Put_ok (q : CDVDMessageQueue) (msg : CDVDMsg) (priority : Int)
    (hi : q.m_bInitialized = true) :
    ∃ q1, Put q (some msg) priority = some (MSGQ_OK, q1) ∧
      q1.m_list = insertItem ⟨msg, priority⟩ q.m_list ∧
      q1.m_bInitialized = true ∧ q1.m_bAbortRequest = q.m_bAbortRequest ∧
      q1.m_iMaxDataSize = q.m_iMaxDataSize := by
  unfold Put
  simp only [hi, Bool.not_true, Bool.false_eq_true, if_false]
  split
  · split
    · exact ⟨_, rfl, rfl, rfl, rfl, rfl⟩
    · exact ⟨_, rfl, rfl, rfl, rfl, rfl⟩
  · exact ⟨_, rfl, rfl, rfl, rfl, rfl⟩

theorem getExit_of_not_abort (r : MsgQueueReturnCode) (pMsg : Option CDVDMsg) (p : Int)
    (q : CDVDMessageQueue) (ha : q.m_bAbortRequest = false) :
    getExit r pMsg p q = ⟨r, pMsg, p, q⟩ := by
  simp [getExit, ha]

/-- On an initialized, non-aborted queue whose back-most entry is eligible,
`Get` hands out that entry and removes it. -/
theorem Get_back (q : CDVDMessageQueue) (l : List DVDMessageListItem) (item : DVDMessageListItem)
    (t : Nat) (p : Int) (hi : q.m_bInitialized = true) (ha : q.m_bAbortRequest = false)
    (hl : q.m_list = l ++ [item]) (hp : p ≤ item.priority) :
    ∃ q1, Get q t p = ⟨MSGQ_OK, some item.message, item.priority, q1⟩ ∧
      q1.m_list = l ∧ q1.m_bInitialized = true ∧ q1.m_bAbortRequest = false ∧
      q1.m_iMaxDataSize = q.m_iMaxDataSize := by
  have hlast : q.m_list.getLast? = some item := by rw [hl]; simp
  have hdrop : q.m_list.dropLast = l := by rw [hl]; simp
  unfold Get
  simp only [hi, ha, Bool.not_true, Bool.false_eq_true, if_false, hlast, ge_iff_le, hp, if_true]
  refine ⟨_, getExit_of_not_abort _ _ _ _ ?_, ?_⟩
  · split
    · split <;> simp [ha]
    · simp [ha]
  · split
    · split <;> simp [hi, ha, hdrop]
    · simp [hi, ha, hdrop]

theorem getExit_queue (r : MsgQueueReturnCode) (pMsg : Option CDVDMsg) (p : Int)
    (q : CDVDMessageQueue) : (getExit r pMsg p q).queue = q := by
  unfold getExit
  split <;> rfl

theorem getNoEntry_queue (q : CDVDMessageQueue) (t : Nat) (p : Int) :
    (getNoEntry q t p).queue = q := by
  unfold getNoEntry
  split
  · exact getExit_queue _ _ _ _
  · rfl

/-- The entry list after any call of `Get`: unchanged, or without its back-most
entry. -/
theorem Get_list (q : CDVDMessageQueue) (t : Nat) (p : Int) :
    (Get q t p).queue.m_list = q.m_list ∨ (Get q t p).queue.m_list = q.m_list.dropLast := by
  unfold Get
  split
  · exact Or.inl rfl
  · split
    · left; rw [getExit_queue]
    · split
      · split
        · right
          rw [getExit_queue]
          dsimp only
          split
          · split <;> rfl
          · rfl
        · left; rw [getNoEntry_queue]
      · left; rw [getNoEntry_queue]

/-- The entry list after `Flush`. -/
theorem Flush_list (q : CDVDMessageQueue) (type : Message) :
    (Flush q type).m_list = flushLoop type q.m_list := by
  unfold Flush
  split <;> rfl

/-- On an initialized, non-aborted queue with no eligible entry, `Get` with a
zero timeout changes nothing. -/
theorem Get_none (q : CDVDMessageQueue) (p : Int)
    (hi : q.m_bInitialized = true) (ha : q.m_bAbortRequest = false)
    (hl : ∀ item, q.m_list.getLast? = some item → item.priority < p) :
    Get q 0 p = ⟨MSGQ_TIMEOUT, none, p, q⟩ := by
  unfold Get
  simp only [hi, ha, Bool.not_true, Bool.false_eq_true, if_false]
  cases hlast : q.m_list.getLast? with
  | none => simp [getNoEntry, getExit, ha]
  | some item =>
    have := hl item hlast
    have hn : ¬ item.priority ≥ p := by omega
    simp [hn, getNoEntry, getExit, ha]

theorem putAll_ok (xs : List (CDVDMsg × Int)) :
    ∀ q : CDVDMessageQueue, q.m_bInitialized = true →
      ∃ q1, putAll q xs = some q1 ∧ q1.m_list = insertAll q.m_list xs ∧
        q1.m_bInitialized = true ∧ q1.m_bAbortRequest = q.m_bAbortRequest ∧
        q1.m_iMaxDataSize = q.m_iMaxDataSize := by
  induction xs with
  | nil => intro q hi; exact ⟨q, rfl, rfl, hi, rfl, rfl⟩
  | cons x xs ih =>
    intro q hi
    obtain ⟨q1, h1, hl1, hi1, ha1, hm1⟩ := Put_ok q x.1 x.2 hi
    obtain ⟨q2, h2, hl2, hi2, ha2, hm2⟩ := ih q1 hi1
    refine ⟨q2, ?_, ?_, hi2, by rw [ha2, ha1], by rw [hm2, hm1]⟩
    · simp only [putAll, h1]; exact h2
    · rw [hl2, hl1]; rfl

theorem sortedAsc_insertAll (xs : List (CDVDMsg × Int)) :
    ∀ l : List DVDMessageListItem, SortedAsc l → SortedAsc (insertAll l xs) := by
  induction xs with
  | nil => intro l h; exact h
  | cons x xs ih => intro l h; exact ih _ (sortedAsc_insertItem _ l h)

theorem length_insertAll (xs : List (CDVDMsg × Int)) :
    ∀ l : List DVDMessageListItem, (insertAll l xs).length = l.length + xs.length := by
  induction xs with
  | nil => intro l; rfl
  | cons x xs ih =>
    intro l
    show (insertAll (insertItem ⟨x.1, x.2⟩ l) xs).length = _
    rw [ih, length_insertItem, List.length_cons]; omega

theorem mem_insertAll (xs : List (CDVDMsg × Int)) :
    ∀ (l : List DVDMessageListItem) (it : DVDMessageListItem),
      it ∈ insertAll l xs → it ∈ l ∨ (it.message, it.priority) ∈ xs := by
  induction xs with
  | nil => intro l it h; exact Or.inl h
  | cons x xs ih =>
    intro l it h
    rcases ih (insertItem ⟨x.1, x.2⟩ l) it h with h1 | h1
    · rcases (mem_insertItem _ it l).mp h1 with e | m
      · right; rw [e]; simp
      · exact Or.inl m
    · right; exact List.mem_cons_of_mem _ h1

/-- Every priority class of the entry list holds its messages newest first. -/
theorem filter_insertAll (p : Int) (xs : List (CDVDMsg × Int)) :
    ∀ l : List DVDMessageListItem,
      ((insertAll l xs).filter (fun a => a.priority == p)).map (fun it => (it.message, it.priority))
        = (xs.filter (fun a => a.2 == p)).reverse
          ++ (l.filter (fun a => a.priority == p)).map (fun it => (it.message, it.priority)) := by
  induction xs with
  | nil => intro l; simp [insertAll]
  | cons x xs ih =>
    intro l
    show ((insertAll (insertItem ⟨x.1, x.2⟩ l) xs).filter _).map _ = _
    rw [ih, filter_insertItem]
    by_cases c : x.2 = p
    · subst c; simp [List.filter_cons]
    · simp [List.filter_cons, c]

/-- Draining an initialized, non-aborted queue with admissible minimum
priorities hands out the entry list back to front. -/
theorem drain_all (ps : List Int) :
    ∀ q : CDVDMessageQueue, q.m_bInitialized = true → q.m_bAbortRequest = false →
      ps.length = q.m_list.length → admissible q ps →
      (drain q ps).1 = q.m_list.reverse.map (fun it => (it.message, it.priority)) ∧
        (drain q ps).2.m_list = [] := by
  induction ps with
  | nil =>
    intro q _ _ hlen _
    have : q.m_list = [] := List.length_eq_zero.mp hlen.symm
    simp [drain, this]
  | cons p ps ih =>
    intro q hi ha hlen hps
    rcases List.eq_nil_or_concat q.m_list with hnil | ⟨l, item, hl⟩
    · rw [hnil] at hlen; simp at hlen
    · rw [List.concat_eq_append] at hl
      have hp : p ≤ item.priority := hps.1 item (by rw [hl]; simp)
      obtain ⟨q1, hg, hl1, hi1, ha1, _⟩ := Get_back q l item 0 p hi ha hl hp
      have hlen1 : ps.length = q1.m_list.length := by
        rw [hl1]; rw [hl] at hlen; simp at hlen; exact hlen
      have hps1 : admissible q1 ps := by
        have := hps.2
        rw [hg] at this
        exact this
      obtain ⟨h1, h2⟩ := ih q1 hi1 ha1 hlen1 hps1
      simp only [drain, hg]
      refine ⟨?_, h2⟩
      rw [h1, hl1, hl]
      simp

/-- The entry list built by insertions into the empty list, read back to
front, is the stable sort of the inserted entries by descending priority. -/
theorem reverse_insertAll_eq_mergeSort (xs : List (CDVDMsg × Int)) :
    (insertAll [] xs).reverse.map (fun it => (it.message, it.priority))
      = xs.mergeSort prioGE := by
  apply eq_of_sortedDesc_of_filter (fun a : CDVDMsg × Int => a.2)
  · have hs : SortedAsc (insertAll [] xs) := sortedAsc_insertAll xs [] List.Pairwise.nil
    unfold SortedAsc at hs
    rw [List.pairwise_map, List.pairwise_reverse]
    exact hs
  · have := List.sorted_mergeSort prioGE_trans prioGE_total xs
    simpa [prioGE] using this
  · intro p
    rw [filter_mergeSort_prioGE, List.filter_map]
    have h := filter_insertAll p xs []
    simp only [List.filter_nil, List.map_nil, List.append_nil] at h
    have h2 : (fun a : CDVDMsg × Int => a.2 == p) ∘ (fun it : DVDMessageListItem => (it.message, it.priority))
        = fun a => a.priority == p := rfl
    rw [h2, List.filter_reverse, List.map_reverse, h, List.reverse_reverse]

/-! ## Lemmas on the byte accounting -/

theorem residentBytes_insertItem (item : DVDMessageListItem) (l : List DVDMessageListItem) :
    residentBytes (insertItem item l) = residentBytes l + accountedSize item := by
  unfold residentBytes
  induction l with
  | nil => simp [insertItem]
  | cons it rest ih =>
    unfold insertItem
    split
    · simp only [List.map_cons, List.sum_cons]; omega
    · simp only [List.map_cons, List.sum_cons, ih]; omega

theorem residentBytes_append_singleton (l : List DVDMessageListItem) (item : DVDMessageListItem) :
    residentBytes (l ++ [item]) = residentBytes l + accountedSize item := by
  simp [residentBytes]

theorem residentBytes_dropLast (l : List DVDMessageListItem) (item : DVDMessageListItem)
    (h : l.getLast? = some item) :
    residentBytes l.dropLast = residentBytes l - accountedSize item := by
  rcases List.eq_nil_or_concat l with hnil | ⟨l1, b, hl⟩
  · rw [hnil] at h; simp at h
  · rw [List.concat_eq_append] at hl
    subst hl
    have hb : (l1 ++ [b]).getLast? = some b := by simp
    rw [hb] at h
    have hbi : b = item := Option.some.inj h
    subst hbi
    rw [List.dropLast_concat, residentBytes_append_singleton]
    omega

/-- An entry that is not a demuxer packet message does not count. -/
theorem accountedSize_of_not_packet (it : DVDMessageListItem)
    (h : it.message.IsType Message.DEMUXER_PACKET = false) : accountedSize it = 0 := by
  simp [accountedSize, h]

theorem residentBytes_eq_zero (l : List DVDMessageListItem)
    (h : ∀ it ∈ l, it.message.IsType Message.DEMUXER_PACKET = false) : residentBytes l = 0 := by
  unfold residentBytes
  induction l with
  | nil => rfl
  | cons it rest ih =>
    simp only [List.map_cons, List.sum_cons]
    rw [accountedSize_of_not_packet it (h it (List.mem_cons_self _ _)),
      ih (fun b hb => h b (List.mem_cons_of_mem _ hb))]
    rfl

/-- Removing entries that are not demuxer packet messages leaves the sum
unchanged. -/
theorem residentBytes_filter (f : DVDMessageListItem → Bool) (l : List DVDMessageListItem)
    (h : ∀ it ∈ l, f it = false → it.message.IsType Message.DEMUXER_PACKET = false) :
    residentBytes (l.filter f) = residentBytes l := by
  unfold residentBytes
  induction l with
  | nil => rfl
  | cons it rest ih =>
    have ih1 := ih (fun b hb => h b (List.mem_cons_of_mem _ hb))
    cases hf : f it
    · have := accountedSize_of_not_packet it (h it (List.mem_cons_self _ _) hf)
      simp only [List.filter_cons, hf, Bool.false_eq_true, if_false, List.map_cons,
        List.sum_cons, ih1, this]
      omega
    · simp only [List.filter_cons, hf, if_true, List.map_cons, List.sum_cons, ih1]

theorem toInt32_toInt32_add (a b : Int) : toInt32 (toInt32 a + b) = toInt32 (a + b) := by
  unfold toInt32
  omega

theorem toInt32_toInt32_sub (a b : Int) : toInt32 (toInt32 a - b) = toInt32 (a - b) := by
  unfold toInt32
  omega

theorem toInt32_toInt32 (a : Int) : toInt32 (toInt32 a) = toInt32 a := by
  unfold toInt32
  omega

theorem toInt32_eq_self (x : Int) (h1 : INT_MIN ≤ x) (h2 : x ≤ INT_MAX) : toInt32 x = x := by
  unfold INT_MIN at h1
  unfold INT_MAX at h2
  unfold toInt32
  omega

/-- The accounting of `Put`: the size field after a successful call is left
alone for an entry that does not count, and is else the 32-bit sum. -/
theorem Put_dataSize (q q1 : CDVDMessageQueue) (msg : CDVDMsg) (priority : Int)
    (r : MsgQueueReturnCode) (hi : q.m_bInitialized = true)
    (h : Put q (some msg) priority = some (r, q1)) :
    (q1.m_iDataSize = q.m_iDataSize ∧ accountedSize ⟨msg, priority⟩ = 0) ∨
      q1.m_iDataSize = toInt32 (q.m_iDataSize + accountedSize ⟨msg, priority⟩) := by
  unfold Put at h
  simp only [hi, Bool.not_true, Bool.false_eq_true, if_false] at h
  unfold accountedSize
  dsimp only
  split at h
  · rename_i hc
    simp only [hc, if_true]
    split at h
    · rename_i packet hp
      simp only [Option.some.injEq, Prod.mk.injEq] at h
      right
      rw [← h.2]
    · rename_i hp
      simp only [Option.some.injEq, Prod.mk.injEq] at h
      left
      rw [← h.2]
      exact ⟨rfl, rfl⟩
  · rename_i hc
    simp only [hc, if_false]
    simp only [Option.some.injEq, Prod.mk.injEq] at h
    left
    rw [← h.2]
    exact ⟨rfl, by simp⟩

/-- Every call of `Put` keeps the 32-bit accounting. -/
theorem ByteInv32_Put (q q1 : CDVDMessageQueue) (pMsg : Option CDVDMsg) (priority : Int)
    (r : MsgQueueReturnCode) (hinv : ByteInv32 q) (h : Put q pMsg priority = some (r, q1)) :
    ByteInv32 q1 := by
  rcases Put_list q q1 pMsg priority r h with ⟨_, msg, hm, hi, hl⟩ | ⟨_, e⟩
  · subst hm
    unfold ByteInv32 at *
    rw [hl, residentBytes_insertItem]
    rcases Put_dataSize q q1 msg priority r hi h with ⟨h1, h2⟩ | h1
    · rw [h1, h2, hinv, Int.add_zero]
    · rw [h1, hinv, toInt32_toInt32_add]
  · rw [e]; exact hinv

/-- A call of `Put` keeps the accounting predicate when the sum of the resident
sizes after the call is representable in `int`. -/
theorem ByteInv_Put (q q1 : CDVDMessageQueue) (pMsg : Option CDVDMsg) (priority : Int)
    (r : MsgQueueReturnCode) (hinv : ByteInv q) (h : Put q pMsg priority = some (r, q1))
    (hmin : INT_MIN ≤ residentBytes q1.m_list) (hmax : residentBytes q1.m_list ≤ INT_MAX) :
    ByteInv q1 := by
  rcases Put_list q q1 pMsg priority r h with ⟨_, msg, hm, hi, hl⟩ | ⟨_, e⟩
  · subst hm
    unfold ByteInv at *
    rw [hl, residentBytes_insertItem] at hmin hmax ⊢
    rcases Put_dataSize q q1 msg priority r hi h with ⟨h1, h2⟩ | h1
    · rw [h1, h2, hinv, Int.add_zero]
    · rw [h1, hinv, toInt32_eq_self _ hmin hmax]
  · rw [e]; exact hinv

/-- The accounting of `Get`: either nothing is removed and the size field is
unchanged, or the back-most entry is removed and the size field is left alone
for an entry that does not count, and is else the 32-bit difference. -/
theorem Get_dataSize (q : CDVDMessageQueue) (t : Nat) (p : Int) :
    ((Get q t p).queue.m_list = q.m_list ∧
        (Get q t p).queue.m_iDataSize = q.m_iDataSize) ∨
      ∃ item, q.m_list.getLast? = some item ∧
        (Get q t p).queue.m_list = q.m_list.dropLast ∧
        (((Get q t p).queue.m_iDataSize = q.m_iDataSize ∧ accountedSize item = 0) ∨
          (Get q t p).queue.m_iDataSize
            = toInt32 (q.m_iDataSize - accountedSize item)) := by
  unfold Get
  split
  · exact Or.inl ⟨rfl, rfl⟩
  · split
    · rw [getExit_queue]; exact Or.inl ⟨rfl, rfl⟩
    · split
      · rename_i item hlast
        split
        · right
          refine ⟨item, hlast, ?_⟩
          rw [getExit_queue]
          dsimp only
          split
          · rename_i hc
            split
            · rename_i packet hp
              refine ⟨rfl, Or.inr ?_⟩
              simp [accountedSize, hc, hp]
            · rename_i hp
              refine ⟨rfl, Or.inl ⟨rfl, ?_⟩⟩
              simp [accountedSize, hc, hp]
          · rename_i hc
            refine ⟨rfl, Or.inl ⟨rfl, ?_⟩⟩
            simp only [accountedSize, hc]
            simp
        · rw [getNoEntry_queue]; exact Or.inl ⟨rfl, rfl⟩
      · rw [getNoEntry_queue]; exact Or.inl ⟨rfl, rfl⟩

/-- Every call of `Get` keeps the 32-bit accounting. -/
theorem ByteInv32_Get (q : CDVDMessageQueue) (t : Nat) (p : Int) (hinv : ByteInv32 q) :
    ByteInv32 (Get q t p).queue := by
  unfold ByteInv32 at *
  rcases Get_dataSize q t p with ⟨hl, hs⟩ | ⟨item, hlast, hl, hs⟩
  · rw [hl, hs]; exact hinv
  · rw [hl, residentBytes_dropLast q.m_list item hlast]
    rcases hs with ⟨h1, h2⟩ | h1
    · rw [h1, h2, hinv, Int.sub_zero]
    · rw [h1, hinv, toInt32_toInt32_sub]

/-- A call of `Get` keeps the accounting predicate when the sum of the resident
sizes after the call is representable in `int`. -/
theorem ByteInv_Get (q : CDVDMessageQueue) (t : Nat) (p : Int) (hinv : ByteInv q)
    (hmin : INT_MIN ≤ residentBytes (Get q t p).queue.m_list)
    (hmax : residentBytes (Get q t p).queue.m_list ≤ INT_MAX) :
    ByteInv (Get q t p).queue := by
  unfold ByteInv at *
  rcases Get_dataSize q t p with ⟨hl, hs⟩ | ⟨item, hlast, hl, hs⟩
  · rw [hl, hs]; exact hinv
  · rw [hl, residentBytes_dropLast q.m_list item hlast] at hmin hmax ⊢
    rcases hs with ⟨h1, h2⟩ | h1
    · rw [h1, h2, hinv, Int.sub_zero]
    · rw [h1, hinv, toInt32_eq_self _ hmin hmax]

/-- Every call of `Flush` keeps the accounting predicate. -/
theorem ByteInv_Flush (q : CDVDMessageQueue) (type : Message) (hinv : ByteInv q) :
    ByteInv (Flush q type) := by
  unfold ByteInv at *
  by_cases c : (type == Message.DEMUXER_PACKET || type == Message.NONE) = true
  · have hl := Flush_list q type
    have hs : (Flush q type).m_iDataSize = 0 := by simp [Flush, c]
    rw [hs, hl, flushLoop_eq_filter]
    symm
    apply residentBytes_eq_zero
    intro it hit
    have hf := (List.mem_filter.mp hit).2
    simp only [Bool.or_eq_true, beq_iff_eq] at c
    simp only [CDVDMsg.IsType, Bool.not_eq_eq_eq_not, Bool.not_true, Bool.or_eq_false_iff,
      beq_eq_false_iff_ne, ne_eq] at hf
    simp only [CDVDMsg.IsType, beq_eq_false_iff_ne, ne_eq]
    rcases c with c | c
    · rw [← c]; exact hf.1
    · exact absurd c hf.2
  · have hl := Flush_list q type
    have hs : (Flush q type).m_iDataSize = q.m_iDataSize := by simp [Flush, c]
    rw [hs, hl, flushLoop_eq_filter, hinv]
    symm
    apply residentBytes_filter
    intro it _ hf
    simp only [Bool.or_eq_true, beq_iff_eq, not_or] at c
    simp only [CDVDMsg.IsType, Bool.not_eq_eq_eq_not, Bool.not_false, Bool.or_eq_true,
      beq_iff_eq] at hf
    simp only [CDVDMsg.IsType, beq_eq_false_iff_ne, ne_eq]
    rcases hf with hf | hf
    · rw [hf]; exact fun e => c.1 e
    · exact absurd hf c.2

theorem Get_initialized (q : CDVDMessageQueue) (t : Nat) (p : Int) :
    (Get q t p).queue.m_bInitialized = q.m_bInitialized := by
  unfold Get
  split
  · rfl
  · split
    · rw [getExit_queue]
    · split
      · split
        · rw [getExit_queue]
          dsimp only
          split
          · split <;> rfl
          · rfl
        · rw [getNoEntry_queue]
      · rw [getNoEntry_queue]

/-- A sequence of calls on priority-0 data entries returns, keeps the 32-bit
accounting and leaves only priority-0 data entries resident. -/
theorem runData_inv (calls : List DataCall) :
    ∀ q : CDVDMessageQueue, q.m_bInitialized = true → ByteInv32 q →
      (∀ it ∈ q.m_list, isDataEntry it) →
      ∃ q1, runData q calls = some q1 ∧ ByteInv32 q1 ∧ ∀ it ∈ q1.m_list, isDataEntry it := by
  induction calls with
  | nil => intro q _ hinv hd; exact ⟨q, rfl, hinv, hd⟩
  | cons c cs ih =>
    intro q hi hinv hd
    cases c with
    | put ptr packet =>
      obtain ⟨q1, h1, hl1, hi1, _, _⟩ :=
        Put_ok q ⟨ptr, Message.DEMUXER_PACKET, some packet⟩ 0 hi
      have hinv1 : ByteInv32 q1 := ByteInv32_Put q q1 _ 0 MSGQ_OK hinv h1
      have hd1 : ∀ it ∈ q1.m_list, isDataEntry it := by
        intro it hit
        rw [hl1] at hit
        rcases (mem_insertItem _ it q.m_list).mp hit with e | m
        · rw [e]; exact ⟨rfl, rfl, by simp⟩
        · exact hd it m
      obtain ⟨q2, h2, hinv2, hd2⟩ := ih q1 hi1 hinv1 hd1
      exact ⟨q2, by simp only [runData, h1]; exact h2, hinv2, hd2⟩
    | get t p =>
      have hi1 : (Get q t p).queue.m_bInitialized = true := by rw [Get_initialized]; exact hi
      have hinv1 : ByteInv32 (Get q t p).queue := ByteInv32_Get q t p hinv
      have hd1 : ∀ it ∈ (Get q t p).queue.m_list, isDataEntry it := by
        intro it hit
        rcases Get_list q t p with e | e
        · rw [e] at hit; exact hd it hit
        · rw [e] at hit; exact hd it (List.dropLast_subset _ hit)
      obtain ⟨q2, h2, hinv2, hd2⟩ := ih _ hi1 hinv1 hd1
      exact ⟨q2, by simp only [runData]; exact h2, hinv2, hd2⟩

/-! ## Ordering of service -/

/-- C1: starting from an initialized, non-aborted, empty queue, every sequence
of puts of non-null messages succeeds, and draining the queue with one zero
timeout get for each entry, each asking for a minimum priority at or below
every priority resident at that time, hands out the messages (with their
priorities) in the order of the stable sort by descending priority of the
sequence of puts, and leaves the queue empty. -/
theorem C1_drain_is_stable_sort (q : CDVDMessageQueue) (xs : List (CDVDMsg × Int))
    (ps : List Int) (hi : q.m_bInitialized = true) (ha : q.m_bAbortRequest = false)
    (he : q.m_list = []) (hlen : ps.length = xs.length) :
    (∃ q1, putAll q xs = some q1) ∧
      ∀ q1, putAll q xs = some q1 → admissible q1 ps →
        (drain q1 ps).1 = xs.mergeSort prioGE ∧ (drain q1 ps).2.m_list = [] := by
  obtain ⟨q1, h1, hl1, hi1, ha1, _⟩ := putAll_ok xs q hi
  refine ⟨⟨q1, h1⟩, ?_⟩
  intro q2 h2 hadm
  have e : q2 = q1 := by rw [h1] at h2; exact (Option.some.inj h2).symm
  subst e
  rw [he] at hl1
  have hlen1 : ps.length = q2.m_list.length := by
    rw [hl1, length_insertAll, hlen]; simp
  obtain ⟨d1, d2⟩ := drain_all ps q2 hi1 (by rw [ha1, ha]) hlen1 hadm
  refine ⟨?_, d2⟩
  rw [d1, hl1]
  exact reverse_insertAll_eq_mergeSort xs

/-- C1 at a concrete input: the control message comes out first, then A, B, C. -/
theorem C1_drain_is_stable_sort_witness :
    putAll (Init construct) abcPuts = some abcQueue ∧ admissible abcQueue [0, -1, 0, -3] ∧
      (drain abcQueue [0, -1, 0, -3]).1
        = [(ctrlMsg 9, 1), (dataMsg 1 200, 0), (dataMsg 2 300, 0), (dataMsg 3 500, 0)] := by
  have hput : putAll (Init construct) abcPuts = some abcQueue := by decide
  have hadm : admissible abcQueue [0, -1, 0, -3] := by
    simp [admissible, abcQueue, Get, getExit, CDVDMsg.IsType, CDVDMsg.GetPacket, dataMsg, ctrlMsg]
  have hsort : abcPuts.mergeSort prioGE
      = [(ctrlMsg 9, 1), (dataMsg 1 200, 0), (dataMsg 2 300, 0), (dataMsg 3 500, 0)] := by
    simp [abcPuts, List.mergeSort, List.merge, prioGE, List.splitInTwo]
  refine ⟨hput, hadm, ?_⟩
  rw [← hsort]
  exact ((C1_drain_is_stable_sort (Init construct) abcPuts [0, -1, 0, -3] rfl rfl rfl rfl).2
    abcQueue hput hadm).1

/-- C2: the entry list stays sorted ascending by priority: the list of a freshly
constructed queue is sorted, and a sorted list is still sorted after any put
(which returns for every non-null message), any get and any flush, and also
after `Init`, `Abort` and `End`. -/
theorem C2_sorted_preserved :
    SortedAsc construct.m_list ∧
    (∀ (q : CDVDMessageQueue) (pMsg : Option CDVDMsg) (priority : Int)
        (r : MsgQueueReturnCode × CDVDMessageQueue),
        SortedAsc q.m_list → Put q pMsg priority = some r → SortedAsc r.2.m_list) ∧
    (∀ (q : CDVDMessageQueue) (msg : CDVDMsg) (priority : Int),
        (Put q (some msg) priority).isSome = true) ∧
    (∀ (q : CDVDMessageQueue) (t : Nat) (p : Int),
        SortedAsc q.m_list → SortedAsc (Get q t p).queue.m_list) ∧
    (∀ (q : CDVDMessageQueue) (type : Message),
        SortedAsc q.m_list → SortedAsc (Flush q type).m_list) ∧
    (∀ q : CDVDMessageQueue, SortedAsc q.m_list →
        SortedAsc (Init q).m_list ∧ SortedAsc (Abort q).m_list ∧ SortedAsc (End q).m_list) := by
  refine ⟨List.Pairwise.nil, ?_, ?_, ?_, ?_, ?_⟩
  · intro q pMsg priority r hs h
    obtain ⟨rc, q1⟩ := r
    rcases Put_list q q1 pMsg priority rc h with ⟨_, msg, _, _, hl⟩ | ⟨_, e⟩
    · show SortedAsc q1.m_list
      rw [hl]
      exact sortedAsc_insertItem _ _ hs
    · show SortedAsc q1.m_list
      rw [e]
      exact hs
  · exact Put_some_isSome
  · intro q t p hs
    rcases Get_list q t p with h | h
    · rw [h]; exact hs
    · rw [h]; exact sortedAsc_dropLast _ hs
  · intro q type hs
    rw [Flush_list, flushLoop_eq_filter]
    exact sortedAsc_filter _ _ hs
  · intro q hs
    refine ⟨hs, hs, ?_⟩
    show SortedAsc (Flush q Message.NONE).m_list
    rw [Flush_list, flushLoop_eq_filter]
    exact sortedAsc_filter _ _ hs

/-- C2 at a concrete input: the sorted list of `abcQueue` stays sorted under a
put, a get and a flush. -/
theorem C2_sorted_preserved_witness :
    SortedAsc abcQueue.m_list ∧
      Put abcQueue (some (ctrlMsg 7)) 0
        = some (MSGQ_OK, { abcQueue with m_list := insertItem ⟨ctrlMsg 7, 0⟩ abcQueue.m_list }) ∧
      SortedAsc (insertItem ⟨ctrlMsg 7, 0⟩ abcQueue.m_list) ∧
      SortedAsc (Get abcQueue 0 0).queue.m_list ∧
      SortedAsc (Flush abcQueue Message.DEMUXER_PACKET).m_list := by
  have hs : SortedAsc abcQueue.m_list := by simp [SortedAsc, abcQueue]
  have hput : Put abcQueue (some (ctrlMsg 7)) 0
      = some (MSGQ_OK, { abcQueue with m_list := insertItem ⟨ctrlMsg 7, 0⟩ abcQueue.m_list }) := by
    decide
  exact ⟨hs, hput, C2_sorted_preserved.2.1 abcQueue _ 0 _ hs hput,
    C2_sorted_preserved.2.2.2.1 abcQueue 0 0 hs,
    C2_sorted_preserved.2.2.2.2.1 abcQueue Message.DEMUXER_PACKET hs⟩

/-! ## Byte accounting -/

/-- C3, as stated, fails when the sum of the resident sizes is not an `int`:
after two puts of packets of 2000000000 bytes into a freshly initialized empty
queue the resident sizes add up to 4000000000 and `m_iDataSize` is
-294967296. -/
theorem C3_accounting_beyond_int :
    runData (Init construct)
        [DataCall.put 1 ⟨2000000000, DVD_NOPTS_VALUE, DVD_NOPTS_VALUE⟩,
         DataCall.put 2 ⟨2000000000, DVD_NOPTS_VALUE, DVD_NOPTS_VALUE⟩] = some fourGigQueue ∧
      fourGigQueue.m_iDataSize = -294967296 ∧
      residentBytes fourGigQueue.m_list = 4000000000 ∧
      fourGigQueue.m_iDataSize ≠ residentBytes fourGigQueue.m_list := by
  refine ⟨by decide, rfl, by decide, by decide⟩

/-- C3 (amended): starting from a freshly initialized empty queue, every finite
sequence of puts of priority-0 data packets and of gets returns; afterwards
every resident entry is a priority-0 data entry and `m_iDataSize` is the sum of
the byte sizes of the resident entries reduced to 32 bits: it equals that sum
whenever the sum is representable in `int`, and it is 0 once the entry list is
empty. -/
theorem C3_byte_accounting_roundtrip (q0 : CDVDMessageQueue) (calls : List DataCall)
    (he : q0.m_list = []) :
    ∃ q1, runData (Init q0) calls = some q1 ∧
      (∀ it ∈ q1.m_list, isDataEntry it) ∧
      q1.m_iDataSize = toInt32 (residentBytes q1.m_list) ∧
      (INT_MIN ≤ residentBytes q1.m_list → residentBytes q1.m_list ≤ INT_MAX →
        q1.m_iDataSize = residentBytes q1.m_list) ∧
      (q1.m_list = [] → q1.m_iDataSize = 0) := by
  have hinv0 : ByteInv32 (Init q0) := by
    show (0 : Int) = toInt32 (residentBytes q0.m_list)
    rw [he]; rfl
  have hd0 : ∀ it ∈ (Init q0).m_list, isDataEntry it := by
    intro it hit
    have : (Init q0).m_list = [] := he
    rw [this] at hit
    exact absurd hit (List.not_mem_nil it)
  obtain ⟨q1, h1, hinv1, hd1⟩ := runData_inv calls (Init q0) rfl hinv0 hd0
  have hinv2 : q1.m_iDataSize = toInt32 (residentBytes q1.m_list) := hinv1
  refine ⟨q1, h1, hd1, hinv2, ?_, ?_⟩
  · intro hmin hmax
    rw [hinv2, toInt32_eq_self _ hmin hmax]
  · intro hnil
    rw [hinv2, hnil]
    rfl

/-- C3 (amended) at a concrete input: two puts, a get, a put and two more gets
on the freshly initialized constructed queue. -/
theorem C3_byte_accounting_roundtrip_witness :
    construct.m_list = [] ∧
      ∃ q1, runData (Init construct)
          [DataCall.put 1 ⟨200, DVD_NOPTS_VALUE, DVD_NOPTS_VALUE⟩,
           DataCall.put 2 ⟨300, DVD_NOPTS_VALUE, DVD_NOPTS_VALUE⟩,
           DataCall.get 0 0,
           DataCall.put 3 ⟨500, DVD_NOPTS_VALUE, DVD_NOPTS_VALUE⟩,
           DataCall.get 0 0, DataCall.get 0 0] = some q1 ∧
        (∀ it ∈ q1.m_list, isDataEntry it) ∧
        q1.m_iDataSize = toInt32 (residentBytes q1.m_list) ∧
        (INT_MIN ≤ residentBytes q1.m_list → residentBytes q1.m_list ≤ INT_MAX →
          q1.m_iDataSize = residentBytes q1.m_list) ∧
        (q1.m_list = [] → q1.m_iDataSize = 0) :=
  ⟨rfl, C3_byte_accounting_roundtrip construct _ rfl⟩

/-- C4, as stated, fails for `Init`: on a queue holding one accounted 200-byte
packet, `Init` zeroes `m_iDataSize` and keeps the packet resident.  It also
fails for a put whose sum is not an `int`: on a queue holding one accounted
packet of 2000000000 bytes the put of a second one leaves `m_iDataSize` at
-294967296. -/
theorem C4_init_breaks_accounting :
    Put (SetMaxDataSize (Init construct) 1000) (some (dataMsg 1 200)) 0
        = some (MSGQ_OK, oneDataQueue) ∧
      ByteInv oneDataQueue ∧ ¬ ByteInv (Init oneDataQueue) ∧
      (Init oneDataQueue).m_iDataSize = 0 ∧ residentBytes (Init oneDataQueue).m_list = 200 ∧
      ByteInv twoGigQueue ∧
      Put twoGigQueue (some (dataMsg 2 2000000000)) 0 = some (MSGQ_OK, fourGigQueue) ∧
      ¬ ByteInv fourGigQueue := by
  refine ⟨by decide, by decide, by decide, rfl, by decide, by decide, by decide, by decide⟩

/-- C4 (amended): the accounting predicate is preserved by `End`, `Abort` and
every `Flush`, and by every `Put` (which returns for every non-null message)
and every `Get` after which the sum of the resident sizes is representable in
`int`; `Init` zeroes `m_iDataSize` and keeps the entry list, so it yields the
predicate exactly when the resident priority-0 data entries have total size 0,
as on an empty entry list. -/
theorem C4_accounting_preserved :
    (∀ q : CDVDMessageQueue, ByteInv q → ByteInv (End q)) ∧
    (∀ q : CDVDMessageQueue, ByteInv q → ByteInv (Abort q)) ∧
    (∀ (q : CDVDMessageQueue) (pMsg : Option CDVDMsg) (priority : Int)
        (r : MsgQueueReturnCode × CDVDMessageQueue),
        ByteInv q → Put q pMsg priority = some r →
        INT_MIN ≤ residentBytes r.2.m_list → residentBytes r.2.m_list ≤ INT_MAX →
        ByteInv r.2) ∧
    (∀ (q : CDVDMessageQueue) (msg : CDVDMsg) (priority : Int),
        (Put q (some msg) priority).isSome = true) ∧
    (∀ (q : CDVDMessageQueue) (t : Nat) (p : Int), ByteInv q →
        INT_MIN ≤ residentBytes (Get q t p).queue.m_list →
        residentBytes (Get q t p).queue.m_list ≤ INT_MAX →
        ByteInv (Get q t p).queue) ∧
    (∀ (q : CDVDMessageQueue) (type : Message), ByteInv q → ByteInv (Flush q type)) ∧
    (∀ q : CDVDMessageQueue, ByteInv (Init q) ↔ residentBytes q.m_list = 0) := by
  refine ⟨?_, ?_, ?_, Put_some_isSome, ByteInv_Get, ByteInv_Flush, ?_⟩
  · intro q _
    show (0 : Int) = residentBytes (Flush q Message.NONE).m_list
    rw [Flush_list, flushLoop_eq_filter]
    simp [residentBytes]
  · intro q h; exact h
  · intro q pMsg priority r hinv h hmin hmax
    obtain ⟨rc, q1⟩ := r
    exact ByteInv_Put q q1 pMsg priority rc hinv h hmin hmax
  · intro q
    show (0 : Int) = residentBytes q.m_list ↔ residentBytes q.m_list = 0
    exact eq_comm

/-- C4 (amended) at a concrete input: a put, a get, a flush, `End` and `Abort`
on `oneDataQueue`, and `Init` on the empty constructed queue. -/
theorem C4_accounting_preserved_witness :
    ByteInv oneDataQueue ∧ ByteInv (End oneDataQueue) ∧ ByteInv (Abort oneDataQueue) ∧
      Put oneDataQueue (some (dataMsg 2 300)) 0
        = some (MSGQ_OK, { oneDataQueue with
            m_list := [⟨dataMsg 2 300, 0⟩, ⟨dataMsg 1 200, 0⟩]
            m_iDataSize := 500 }) ∧
      ByteInv { oneDataQueue with
        m_list := [⟨dataMsg 2 300, 0⟩, ⟨dataMsg 1 200, 0⟩]
        m_iDataSize := 500 } ∧
      ByteInv (Get oneDataQueue 0 0).queue ∧ ByteInv (Flush oneDataQueue Message.DEMUXER_PACKET) ∧
      residentBytes construct.m_list = 0 ∧ ByteInv (Init construct) := by
  have h : ByteInv oneDataQueue := by decide
  have hput : Put oneDataQueue (some (dataMsg 2 300)) 0
      = some (MSGQ_OK, { oneDataQueue with
          m_list := [⟨dataMsg 2 300, 0⟩, ⟨dataMsg 1 200, 0⟩]
          m_iDataSize := 500 }) := by decide
  exact ⟨h, C4_accounting_preserved.1 _ h, C4_accounting_preserved.2.1 _ h, hput,
    C4_accounting_preserved.2.2.1 _ _ 0 _ h hput (by decide) (by decide),
    C4_accounting_preserved.2.2.2.2.1 _ 0 0 h (by decide) (by decide),
    C4_accounting_preserved.2.2.2.2.2.1 _ Message.DEMUXER_PACKET h, rfl,
    (C4_accounting_preserved.2.2.2.2.2.2 construct).mpr rfl⟩

/-! ## Get without an eligible entry -/

/-- C5: on an initialized, non-aborted queue that is empty or whose back-most
entry has a priority strictly below the requested minimum, `Get` with timeout 0
returns `MSGQ_TIMEOUT` and no message, leaves the in-out priority as it was and
leaves the whole queue (entry list, `m_iDataSize`, `m_TimeBack`, `m_TimeFront`
and all other members) unchanged. -/
theorem C5_get_timeout_no_change (q : CDVDMessageQueue) (p : Int)
    (hi : q.m_bInitialized = true) (ha : q.m_bAbortRequest = false)
    (h : q.m_list = [] ∨ ∃ item, q.m_list.getLast? = some item ∧ item.priority < p) :
    Get q 0 p = ⟨MSGQ_TIMEOUT, none, p, q⟩ := by
  apply Get_none q p hi ha
  intro item hitem
  rcases h with hnil | ⟨item1, h1, hlt⟩
  · rw [hnil] at hitem; simp at hitem
  · rw [h1] at hitem
    rw [← Option.some.inj hitem]
    exact hlt

/-- C5 at a concrete input: `Get` with minimum priority 5 and timeout 0 on a
queue holding only one priority-0 entry. -/
theorem C5_get_timeout_no_change_witness :
    (oneDataQueue.m_list = [] ∨
        ∃ item, oneDataQueue.m_list.getLast? = some item ∧ item.priority < 5) ∧
      Get oneDataQueue 0 5 = ⟨MSGQ_TIMEOUT, none, 5, oneDataQueue⟩ :=
  have h : oneDataQueue.m_list = [] ∨
      ∃ item, oneDataQueue.m_list.getLast? = some item ∧ item.priority < 5 :=
    Or.inr ⟨⟨dataMsg 1 200, 0⟩, rfl, by decide⟩
  ⟨h, C5_get_timeout_no_change oneDataQueue 5 rfl rfl h⟩

/-! ## Flush -/

theorem GetPacketCount_Flush (q : CDVDMessageQueue) (k : Message) :
    GetPacketCount (Flush q k) k = 0 := by
  unfold GetPacketCount
  split
  · rfl
  · rw [Flush_list, flushLoop_eq_filter, List.filter_filter, List.length_eq_zero,
      List.filter_eq_nil_iff]
    intro it _
    cases it.message.IsType k <;> simp

/-- C6: for every queue and every kind `k` other than the wildcard, `Flush k`
leaves exactly the entries whose kind is not `k`, in their original order, and
`GetPacketCount k` is 0 afterwards; `Flush NONE` leaves no entry.  For the
demuxer packet kind and for the wildcard, `m_iDataSize` becomes 0 and
`m_TimeBack`, `m_TimeFront` become `DVD_NOPTS_VALUE`; for every other kind the
three fields are unchanged.  The flags and the capacity are never changed. -/
theorem C6_flush_scoping (q : CDVDMessageQueue) :
    (∀ k : Message, k ≠ Message.NONE →
        (Flush q k).m_list = q.m_list.filter (fun it => decide (it.message.m_message ≠ k)) ∧
        GetPacketCount (Flush q k) k = 0) ∧
    (Flush q Message.NONE).m_list = [] ∧
    (∀ k : Message, k = Message.DEMUXER_PACKET ∨ k = Message.NONE →
        (Flush q k).m_iDataSize = 0 ∧ (Flush q k).m_TimeBack = DVD_NOPTS_VALUE ∧
        (Flush q k).m_TimeFront = DVD_NOPTS_VALUE) ∧
    (∀ k : Message, k ≠ Message.DEMUXER_PACKET → k ≠ Message.NONE →
        (Flush q k).m_iDataSize = q.m_iDataSize ∧ (Flush q k).m_TimeBack = q.m_TimeBack ∧
        (Flush q k).m_TimeFront = q.m_TimeFront) ∧
    (∀ k : Message, (Flush q k).m_bInitialized = q.m_bInitialized ∧
        (Flush q k).m_bAbortRequest = q.m_bAbortRequest ∧
        (Flush q k).m_iMaxDataSize = q.m_iMaxDataSize) := by
  refine ⟨?_, ?_, ?_, ?_, ?_⟩
  · intro k hk
    refine ⟨?_, GetPacketCount_Flush q k⟩
    rw [Flush_list, flushLoop_eq_filter]
    apply List.filter_congr
    intro it _
    have hk2 : (k == Message.NONE) = false := by simp [hk]
    simp only [CDVDMsg.IsType, hk2, Bool.or_false, decide_not]
    rfl
  · rw [Flush_list, flushLoop_eq_filter]
    simp
  · intro k hk
    have c : (k == Message.DEMUXER_PACKET || k == Message.NONE) = true := by
      rcases hk with e | e <;> simp [e]
    simp [Flush, c]
  · intro k h1 h2
    have c : (k == Message.DEMUXER_PACKET || k == Message.NONE) = false := by
      simp [h1, h2]
    simp [Flush, c]
  · intro k
    unfold Flush
    split <;> exact ⟨rfl, rfl, rfl⟩

/-- C6 at a concrete input: flushing the demuxer packets of `abcQueue` keeps the
control message and resets the accounting; flushing the control kind keeps the
three packets and the accounting. -/
theorem C6_flush_scoping_witness :
    Message.DEMUXER_PACKET ≠ Message.NONE ∧
      (Flush abcQueue Message.DEMUXER_PACKET).m_list = [⟨ctrlMsg 9, 1⟩] ∧
      GetPacketCount (Flush abcQueue Message.DEMUXER_PACKET) Message.DEMUXER_PACKET = 0 ∧
      (Flush abcQueue Message.DEMUXER_PACKET).m_iDataSize = 0 ∧
      (Flush abcQueue (Message.OTHER 0)).m_iDataSize = 1000 := by
  have hne : Message.DEMUXER_PACKET ≠ Message.NONE := by decide
  have h := C6_flush_scoping abcQueue
  refine ⟨hne, ?_, (h.1 _ hne).2, (h.2.2.1 _ (Or.inl rfl)).1, ?_⟩
  · rw [(h.1 _ hne).1]; decide
  · rw [(h.2.2.2.1 (Message.OTHER 0) (by decide) (by decide)).1]; rfl

/-! ## The level estimate -/

theorem round_nearest_eq (x : ℚ) (z : Int) (h1 : (z : ℚ) ≤ x + 1 / 2)
    (h2 : x + 1 / 2 < z + 1) : round_nearest x = z := by
  unfold round_nearest
  exact Int.floor_eq_iff.mpr ⟨h1, h2⟩

theorem toInt32_of_range (x : Int) (h1 : -2147483648 ≤ x) (h2 : x ≤ 2147483647) :
    toInt32 x = x := by
  unfold toInt32
  omega

/-- The return of line 239. -/
theorem GetLevel_of_over (rs : ℚ → ℚ → Option Int) (q : CDVDMessageQueue)
    (h : q.m_iDataSize > q.m_iMaxDataSize) : GetLevel rs q = some 100 := by
  unfold GetLevel
  simp only [h, if_true]

/-- The return of line 241. -/
theorem GetLevel_of_zero (rs : ℚ → ℚ → Option Int) (q : CDVDMessageQueue)
    (hz : q.m_iDataSize = 0) (hC : 0 ≤ q.m_iMaxDataSize) : GetLevel rs q = some 0 := by
  unfold GetLevel
  have h1 : ¬ (0 : Int) > q.m_iMaxDataSize := by omega
  simp only [hz, h1, if_false, if_true]

/-- The branch of line 244. -/
theorem GetLevel_of_dataBased (rs : ℚ → ℚ → Option Int) (q : CDVDMessageQueue)
    (h0 : q.m_iDataSize ≠ 0) (hle : q.m_iDataSize ≤ q.m_iMaxDataSize)
    (hC : 0 < q.m_iMaxDataSize) (hdb : IsDataBased q = true) :
    GetLevel rs q
      = some (min 100 (Int.tdiv (toInt32 (100 * q.m_iDataSize)) q.m_iMaxDataSize)) := by
  unfold GetLevel
  have h1 : ¬ q.m_iDataSize > q.m_iMaxDataSize := by omega
  have h2 : ¬ q.m_iMaxDataSize = 0 := by omega
  have h3 : ¬ (toInt32 (100 * q.m_iDataSize) = -2147483648 ∧ q.m_iMaxDataSize = -1) := by
    intro h
    omega
  simp only [h1, if_false, h0, hdb, if_true, h2, h3]

/-- The branch of lines 246-255 where line 246 yields the value `span`: that
value, at most 100, and 1 instead of 0. -/
theorem GetLevel_of_timeBased (rs : ℚ → ℚ → Option Int) (q : CDVDMessageQueue) (span : Int)
    (h0 : q.m_iDataSize ≠ 0) (hle : q.m_iDataSize ≤ q.m_iMaxDataSize)
    (hdb : IsDataBased q = false) (hs : rs q.m_TimeFront q.m_TimeBack = some span) :
    GetLevel rs q = some (if min 100 span = 0 then 1 else min 100 span) := by
  unfold GetLevel
  have h1 : ¬ q.m_iDataSize > q.m_iMaxDataSize := by omega
  simp only [h1, if_false, h0, hdb, Bool.false_eq_true, hs, ne_eq, not_false_eq_true,
    and_true]
  split <;> rfl

/-- The branch of lines 246-255 where line 246 yields no value. -/
theorem GetLevel_of_timeBased_none (rs : ℚ → ℚ → Option Int) (q : CDVDMessageQueue)
    (h0 : q.m_iDataSize ≠ 0) (hle : q.m_iDataSize ≤ q.m_iMaxDataSize)
    (hdb : IsDataBased q = false) (hs : rs q.m_TimeFront q.m_TimeBack = none) :
    GetLevel rs q = none := by
  unfold GetLevel
  have h1 : ¬ q.m_iDataSize > q.m_iMaxDataSize := by omega
  simp only [h1, if_false, h0, hdb, Bool.false_eq_true, hs]

theorem exactSpan_one_second : exactSpan 1000000 0 = 25 := by
  unfold exactSpan
  apply round_nearest_eq <;> norm_num [m_TimeSize, DVD_TIME_BASE]

theorem exactSpan_hugeSpan : exactSpan 100000000000000 0 = 2500000000 := by
  unfold exactSpan
  apply round_nearest_eq <;> norm_num [m_TimeSize, DVD_TIME_BASE]

theorem exactRound_one_second : exactRound 1000000 0 = some 25 := by
  unfold exactRound
  rw [exactSpan_one_second]

/-- With time stamps 0 s and 1 s the level is the value of line 246 (at most
100, and 1 instead of 0), whatever the occupancy below the capacity. -/
theorem GetLevel_timedQueue (rs : ℚ → ℚ → Option Int) (span : Int)
    (h : rs 1000000 0 = some span) :
    GetLevel rs timedQueue = some (if min 100 span = 0 then 1 else min 100 span) :=
  GetLevel_of_timeBased rs timedQueue span (by decide) (by decide) (by decide) h

theorem GetLevel_timedQueue_25 (rs : ℚ → ℚ → Option Int) (h : rs 1000000 0 = some 25) :
    GetLevel rs timedQueue = some 25 := by
  rw [GetLevel_timedQueue rs 25 h]
  decide

theorem GetLevel_bigQueue (rs : ℚ → ℚ → Option Int) : GetLevel rs bigQueue = some (-32) := by
  rw [GetLevel_of_dataBased rs bigQueue (by decide) (by decide) (by decide) (by decide)]
  decide

theorem GetLevel_halfQueue (rs : ℚ → ℚ → Option Int) : GetLevel rs halfQueue = some 50 := by
  rw [GetLevel_of_dataBased rs halfQueue (by decide) (by decide) (by decide) (by decide)]
  decide

theorem GetLevel_tinyQueue (rs : ℚ → ℚ → Option Int) : GetLevel rs tinyQueue = some 0 := by
  rw [GetLevel_of_dataBased rs tinyQueue (by decide) (by decide) (by decide) (by decide)]
  decide

/-- C7, as stated, fails: with both time stamps present and a positive span the
level is the time-based value of line 246, whatever the byte ratio (for time
stamps 0 s and 1 s line 246 yields 25, exactly also in double precision, and
the level is 25, not 50), and for an occupancy whose hundredfold leaves the
range of `int` the quotient is not the one of the formula (-32 here, not 75). -/
theorem C7_level_not_always_byte_ratio :
    putAll (SetMaxDataSize (Init construct) 1000)
        [(⟨1, Message.DEMUXER_PACKET, some ⟨250, DVD_NOPTS_VALUE, 0⟩⟩, 0),
         (⟨2, Message.DEMUXER_PACKET, some ⟨250, DVD_NOPTS_VALUE, 1000000⟩⟩, 0)]
      = some timedQueue ∧
    Put (SetMaxDataSize (Init construct) 40000000) (some (dataMsg 1 30000000)) 0
      = some (MSGQ_OK, bigQueue) ∧
    (0 < timedQueue.m_iMaxDataSize ∧ 0 < timedQueue.m_iDataSize ∧
        timedQueue.m_iDataSize ≤ timedQueue.m_iMaxDataSize ∧
        exactSpan 1000000 0 = 25 ∧
        (∀ rs : ℚ → ℚ → Option Int, rs 1000000 0 = some 25 →
          GetLevel rs timedQueue = some 25) ∧
        GetLevel exactRound timedQueue = some 25 ∧
        min 100 (100 * timedQueue.m_iDataSize / timedQueue.m_iMaxDataSize) = 50) ∧
    (0 < bigQueue.m_iMaxDataSize ∧ 0 < bigQueue.m_iDataSize ∧
        bigQueue.m_iDataSize ≤ bigQueue.m_iMaxDataSize ∧
        (∀ rs : ℚ → ℚ → Option Int, GetLevel rs bigQueue = some (-32)) ∧
        min 100 (100 * bigQueue.m_iDataSize / bigQueue.m_iMaxDataSize) = 75) ∧
    (∀ rs : ℚ → ℚ → Option Int, rs 1000000 0 = some 25 →
      ¬ (∀ q : CDVDMessageQueue, 0 < q.m_iMaxDataSize →
        0 < q.m_iDataSize → q.m_iDataSize ≤ q.m_iMaxDataSize →
        100 * q.m_iDataSize ≤ INT_MAX →
        GetLevel rs q = some (min 100 (100 * q.m_iDataSize / q.m_iMaxDataSize)))) ∧
    (∀ rs : ℚ → ℚ → Option Int,
      ¬ (∀ q : CDVDMessageQueue, 0 < q.m_iMaxDataSize →
        0 < q.m_iDataSize → q.m_iDataSize ≤ q.m_iMaxDataSize →
        GetLevel rs q = some (min 100 (100 * q.m_iDataSize / q.m_iMaxDataSize)))) := by
  refine ⟨by decide, by decide,
    ⟨by decide, by decide, by decide, exactSpan_one_second, GetLevel_timedQueue_25,
      GetLevel_timedQueue_25 exactRound exactRound_one_second, by decide⟩,
    ⟨by decide, by decide, by decide, GetLevel_bigQueue, by decide⟩, ?_, ?_⟩
  · intro rs hrs h
    have h1 := h timedQueue (by decide) (by decide) (by decide) (by decide)
    rw [GetLevel_timedQueue_25 rs hrs] at h1
    revert h1
    decide
  · intro rs h
    have h1 := h bigQueue (by decide) (by decide) (by decide)
    rw [GetLevel_bigQueue rs] at h1
    revert h1
    decide

/-- C7 (amended): for every queue state with capacity `C > 0`, occupancy
`0 < m_iDataSize ≤ C` whose hundredfold is representable in `int`, and a time
stamp missing or `m_TimeFront ≤ m_TimeBack` (`IsDataBased`), `GetLevel` returns
`min(100, 100 * m_iDataSize / C)`, whatever line 246 would yield. -/
theorem C7_level_byte_ratio (rs : ℚ → ℚ → Option Int) (q : CDVDMessageQueue)
    (hC : 0 < q.m_iMaxDataSize) (h0 : 0 < q.m_iDataSize)
    (hle : q.m_iDataSize ≤ q.m_iMaxDataSize)
    (hrep : 100 * q.m_iDataSize ≤ INT_MAX) (hdb : IsDataBased q = true) :
    GetLevel rs q = some (min 100 (100 * q.m_iDataSize / q.m_iMaxDataSize)) := by
  unfold INT_MAX at hrep
  rw [GetLevel_of_dataBased rs q (by omega) hle (by omega) hdb,
    toInt32_of_range _ (by omega) hrep, Int.tdiv_eq_ediv (by omega) (by omega)]

/-- C7 (amended) at the scenario of the spec: capacity 1000, packets of 200,
300 and 500 bytes without time stamps put at priority 0 give occupancy 1000 and
level 100; one `Get` hands out the 200 byte packet and gives occupancy 800 and
level 80. -/
theorem C7_level_byte_ratio_witness :
    putAll (SetMaxDataSize (Init construct) 1000)
        [(dataMsg 1 200, 0), (dataMsg 2 300, 0), (dataMsg 3 500, 0)] = some scenarioQueue ∧
      scenarioQueue.m_iDataSize = 1000 ∧ IsDataBased scenarioQueue = true ∧
      GetLevel exactRound scenarioQueue = some 100 ∧
      Get scenarioQueue 0 0 = ⟨MSGQ_OK, some (dataMsg 1 200), 0, scenarioQueueAfterGet⟩ ∧
      scenarioQueueAfterGet.m_iDataSize = 800 ∧
      GetLevel exactRound scenarioQueueAfterGet = some 80 := by
  refine ⟨by decide, rfl, by decide, ?_, by decide, rfl, ?_⟩
  · rw [C7_level_byte_ratio exactRound scenarioQueue (by decide) (by decide) (by decide)
      (by decide) (by decide)]
    decide
  · rw [C7_level_byte_ratio exactRound scenarioQueueAfterGet (by decide) (by decide)
      (by decide) (by decide) (by decide)]
    decide

/-- C8, as stated, fails: one packet of 1 byte without time stamps, put at
priority 0 into an initialized queue of capacity 1000, gives a non-zero
occupancy and the byte ratio `100 * 1 / 1000 = 0` of line 244 as level,
whatever line 246 would yield. -/
theorem C8_level_zero_with_data :
    Put (SetMaxDataSize (Init construct) 1000) (some (dataMsg 1 1)) 0
        = some (MSGQ_OK, tinyQueue) ∧
      tinyQueue.m_iDataSize ≠ 0 ∧ IsDataBased tinyQueue = true ∧
      (∀ rs : ℚ → ℚ → Option Int, GetLevel rs tinyQueue = some 0) ∧
      min 100 (100 * tinyQueue.m_iDataSize / tinyQueue.m_iMaxDataSize) = 0 ∧
      (∀ rs : ℚ → ℚ → Option Int,
        ¬ (∀ q : CDVDMessageQueue, q.m_iDataSize ≠ 0 →
          ∃ level, GetLevel rs q = some level ∧ 1 ≤ level)) := by
  refine ⟨by decide, by decide, by decide, GetLevel_tinyQueue, by decide, ?_⟩
  intro rs h
  obtain ⟨level, h1, h2⟩ := h tinyQueue (by decide)
  rw [GetLevel_tinyQueue] at h1
  have : level = 0 := (Option.some.inj h1).symm
  omega

/-- C8 (amended): for every queue state with `m_iDataSize ≠ 0`: above the
capacity the level is 100; in the time-based branch (occupancy at most the
capacity, both time stamps present, `m_TimeFront > m_TimeBack`) the level is
never 0, a value 0 of line 246 is reported as 1, and the level is at least 1
whenever the value of line 246 is not negative; in the data-based branch (a
time stamp missing or no positive span) with a positive occupancy whose
hundredfold is representable the level is the byte ratio, which is at least 1
exactly when `100 * m_iDataSize ≥ m_iMaxDataSize`. -/
theorem C8_level_floor (rs : ℚ → ℚ → Option Int) (q : CDVDMessageQueue)
    (h0 : q.m_iDataSize ≠ 0) :
    (q.m_iDataSize > q.m_iMaxDataSize → GetLevel rs q = some 100) ∧
    (q.m_iDataSize ≤ q.m_iMaxDataSize → IsDataBased q = false →
      ∀ span, rs q.m_TimeFront q.m_TimeBack = some span →
        ∃ level, GetLevel rs q = some level ∧ level ≠ 0 ∧
          (span = 0 → level = 1) ∧ (0 ≤ span → 1 ≤ level)) ∧
    (0 < q.m_iDataSize → q.m_iDataSize ≤ q.m_iMaxDataSize → IsDataBased q = true →
      100 * q.m_iDataSize ≤ INT_MAX →
      GetLevel rs q = some (min 100 (100 * q.m_iDataSize / q.m_iMaxDataSize)) ∧
        (1 ≤ min 100 (100 * q.m_iDataSize / q.m_iMaxDataSize)
          ↔ q.m_iMaxDataSize ≤ 100 * q.m_iDataSize)) := by
  refine ⟨GetLevel_of_over rs q, ?_, ?_⟩
  · intro hle hdb span hs
    refine ⟨_, GetLevel_of_timeBased rs q span h0 hle hdb hs, ?_, ?_, ?_⟩
    · split
      · decide
      · assumption
    · intro hz
      simp [hz]
    · intro hnn
      split
      · exact le_refl _
      · rename_i hne
        have : 0 ≤ min 100 span := le_min (by decide) hnn
        omega
  · intro hpos hle hdb hrep
    have hC : 0 < q.m_iMaxDataSize := by omega
    unfold INT_MAX at hrep
    refine ⟨?_, ?_⟩
    · rw [GetLevel_of_dataBased rs q h0 hle hC hdb, toInt32_of_range _ (by omega) hrep,
        Int.tdiv_eq_ediv (by omega) (by omega)]
    · have hdiv : 1 ≤ 100 * q.m_iDataSize / q.m_iMaxDataSize
          ↔ q.m_iMaxDataSize ≤ 100 * q.m_iDataSize := by
        rw [Int.le_ediv_iff_mul_le hC, Int.one_mul]
      constructor
      · intro h
        exact hdiv.mp (le_trans h (min_le_right _ _))
      · intro h
        exact le_min (by decide) (hdiv.mpr h)

/-- C8 (amended) at concrete inputs: with time stamps 0 s and 1 s and a value 0
of line 246 the level is 1; without time stamps, occupancy 800 of 1000 has the
byte ratio 80, and occupancy 1 of 1000 has the byte ratio 0. -/
theorem C8_level_floor_witness :
    timedQueue.m_iDataSize ≠ 0 ∧
      (∃ level, GetLevel (fun _ _ => some 0) timedQueue = some level ∧ level ≠ 0 ∧
        level = 1) ∧
      GetLevel exactRound scenarioQueueAfterGet = some 80 ∧
      GetLevel exactRound tinyQueue = some 0 := by
  refine ⟨by decide, ?_, ?_, GetLevel_tinyQueue exactRound⟩
  · obtain ⟨level, h1, h2, h3, _⟩ :=
      (C8_level_floor (fun _ _ => some 0) timedQueue (by decide)).2.1 (by decide) (by decide)
        0 rfl
    exact ⟨level, h1, h2, h3 rfl⟩
  · rw [((C8_level_floor exactRound scenarioQueueAfterGet (by decide)).2.2 (by decide)
      (by decide) (by decide) (by decide)).1]
    decide

/-- The range of the level: for a non-negative occupancy and capacity, with the
hundredfold of the occupancy representable in `int` and, in the time-based
branch, a value of line 246 that is not negative, `GetLevel` returns a level
from 0 to 100. -/
theorem GetLevel_range (rs : ℚ → ℚ → Option Int) (q : CDVDMessageQueue)
    (h0 : 0 ≤ q.m_iDataSize) (hC : 0 ≤ q.m_iMaxDataSize)
    (hrep : 100 * q.m_iDataSize ≤ INT_MAX)
    (hrs : IsDataBased q = false →
      ∃ span, rs q.m_TimeFront q.m_TimeBack = some span ∧ 0 ≤ span) :
    ∃ level, GetLevel rs q = some level ∧ 0 ≤ level ∧ level ≤ 100 := by
  unfold INT_MAX at hrep
  by_cases c1 : q.m_iDataSize > q.m_iMaxDataSize
  · exact ⟨100, GetLevel_of_over rs q c1, by decide, by decide⟩
  · by_cases c2 : q.m_iDataSize = 0
    · exact ⟨0, GetLevel_of_zero rs q c2 hC, by decide, by decide⟩
    · have hle : q.m_iDataSize ≤ q.m_iMaxDataSize := by omega
      cases hdb : IsDataBased q
      · obtain ⟨span, hs, hr⟩ := hrs hdb
        refine ⟨_, GetLevel_of_timeBased rs q span c2 hle hdb hs, ?_⟩
        split
        · exact ⟨by decide, by decide⟩
        · exact ⟨le_min (by decide) hr, min_le_left _ _⟩
      · refine ⟨_, GetLevel_of_dataBased rs q c2 hle (by omega) hdb, ?_, min_le_left _ _⟩
        rw [toInt32_of_range _ (by omega) hrep]
        exact le_min (by decide) (Int.tdiv_nonneg (by omega) hC)

/-- C10 at the failing input: two packets with decode time stamps 0 and
100000000000000 (a span of 100000000 s) in a queue of capacity 1000 satisfy
every hypothesis of the claim.  The level is what line 246 yields, at most 100:
the rounded value there is 2500000000, which no `int` holds, so that a level
from 0 to 100 needs a line 246 that yields a non-negative `int` other than the
rounded value; the smallest `int` gives the level -2147483648 and no value
gives no level. -/
theorem C10_level_outside_range :
    putAll (SetMaxDataSize (Init construct) 1000)
        [(⟨1, Message.DEMUXER_PACKET, some ⟨1, DVD_NOPTS_VALUE, 0⟩⟩, 0),
         (⟨2, Message.DEMUXER_PACKET, some ⟨1, DVD_NOPTS_VALUE, 100000000000000⟩⟩, 0)]
      = some hugeSpanQueue ∧
    0 ≤ hugeSpanQueue.m_iDataSize ∧ 0 ≤ hugeSpanQueue.m_iMaxDataSize ∧
      100 * hugeSpanQueue.m_iDataSize ≤ INT_MAX ∧
      exactSpan hugeSpanQueue.m_TimeFront hugeSpanQueue.m_TimeBack = 2500000000 ∧
      INT_MAX < 2500000000 ∧
      (∀ (rs : ℚ → ℚ → Option Int) (span : Int), rs 100000000000000 0 = some span →
        GetLevel rs hugeSpanQueue = some (if min 100 span = 0 then 1 else min 100 span)) ∧
      (∀ rs : ℚ → ℚ → Option Int, rs 100000000000000 0 = none →
        GetLevel rs hugeSpanQueue = none) ∧
      GetLevel (fun _ _ => some INT_MIN) hugeSpanQueue = some (-2147483648) ∧
      (∀ (rs : ℚ → ℚ → Option Int) (level : Int), GetLevel rs hugeSpanQueue = some level →
        0 ≤ level → ∃ span, rs 100000000000000 0 = some span ∧ 0 ≤ span) := by
  have hg : ∀ (rs : ℚ → ℚ → Option Int) (span : Int), rs 100000000000000 0 = some span →
      GetLevel rs hugeSpanQueue = some (if min 100 span = 0 then 1 else min 100 span) :=
    fun rs span h =>
      GetLevel_of_timeBased rs hugeSpanQueue span (by decide) (by decide) (by decide) h
  have hn : ∀ rs : ℚ → ℚ → Option Int, rs 100000000000000 0 = none →
      GetLevel rs hugeSpanQueue = none :=
    fun rs h => GetLevel_of_timeBased_none rs hugeSpanQueue (by decide) (by decide)
      (by decide) h
  refine ⟨by decide, by decide, by decide, by decide, exactSpan_hugeSpan, by decide, hg, hn,
    ?_, ?_⟩
  · rw [hg _ INT_MIN rfl]
    decide
  · intro rs level hl hnn
    cases hs : rs 100000000000000 0 with
    | none =>
      rw [hn rs hs] at hl
      exact absurd hl (by simp)
    | some span =>
      refine ⟨span, rfl, ?_⟩
      rw [hg rs span hs] at hl
      have hl2 := Option.some.inj hl
      by_contra hneg
      have hm : min 100 span = span := min_eq_right (by omega)
      rw [hm] at hl2
      split at hl2 <;> omega

/-! ## Position of a new entry and choice of the entry handed out -/

/-- The insertion of `Put` splits the old list at the end of its longest
leading run of priorities strictly below the new one. -/
theorem insertItem_eq_takeWhile (item : DVDMessageListItem) (l : List DVDMessageListItem) :
    insertItem item l
      = l.takeWhile (fun it => decide (it.priority < item.priority))
        ++ item :: l.dropWhile (fun it => decide (it.priority < item.priority)) := by
  induction l with
  | nil => rfl
  | cons it rest ih =>
    unfold insertItem
    split
    · rename_i hle
      have hn : ¬ it.priority < item.priority := by omega
      simp [List.takeWhile_cons, List.dropWhile_cons, hn]
    · rename_i hnle
      have hlt : it.priority < item.priority := by omega
      simp [List.takeWhile_cons, List.dropWhile_cons, hlt, ih]

theorem sublist_insertItem (item : DVDMessageListItem) (l : List DVDMessageListItem) :
    List.Sublist l (insertItem item l) := by
  induction l with
  | nil => exact List.nil_sublist _
  | cons it rest ih =>
    unfold insertItem
    split
    · exact List.sublist_cons_self _ _
    · exact List.Sublist.cons₂ _ ih

/-- C17: on an initialized queue the put of a non-null message at priority `p`
returns `MSGQ_OK` and yields the entry list `prefix ++ [new entry] ++ suffix`,
where `prefix` is the longest leading run of old entries of priority strictly
below `p` and `suffix` is the rest (so that `suffix`, if not empty, starts with
an entry of priority at least `p`); the old list is a sublist of the new one
(nothing is removed or reordered) and the length grows by exactly one. -/
theorem C17_put_position (q : CDVDMessageQueue) (msg : CDVDMsg) (p : Int)
    (hi : q.m_bInitialized = true) :
    ∃ q1, Put q (some msg) p = some (MSGQ_OK, q1) ∧
      q1.m_list = q.m_list.takeWhile (fun it => decide (it.priority < p))
        ++ ⟨msg, p⟩ :: q.m_list.dropWhile (fun it => decide (it.priority < p)) ∧
      (∀ it ∈ q.m_list.takeWhile (fun it => decide (it.priority < p)), it.priority < p) ∧
      (∀ it, (q.m_list.dropWhile (fun it => decide (it.priority < p))).head? = some it →
        p ≤ it.priority) ∧
      q.m_list.takeWhile (fun it => decide (it.priority < p))
        ++ q.m_list.dropWhile (fun it => decide (it.priority < p)) = q.m_list ∧
      List.Sublist q.m_list q1.m_list ∧
      q1.m_list.length = q.m_list.length + 1 := by
  obtain ⟨q1, h1, hl, _, _, _⟩ := Put_ok q msg p hi
  refine ⟨q1, h1, ?_, ?_, ?_, List.takeWhile_append_dropWhile _ _, ?_, ?_⟩
  · rw [hl]; exact insertItem_eq_takeWhile ⟨msg, p⟩ q.m_list
  · intro it hit
    have := List.mem_takeWhile_imp hit
    simpa using this
  · intro it hit
    have := List.head?_dropWhile_not (fun it : DVDMessageListItem => decide (it.priority < p))
      q.m_list
    rw [hit] at this
    simp only [Option.elim, Bool.not_eq_true', decide_eq_false_iff_not, not_lt] at this
    simpa using this
  · rw [hl]; exact sublist_insertItem _ _
  · rw [hl]; exact length_insertItem _ _

/-- C17 at a concrete input: a control message put at priority 0 into
`abcQueue` goes in front of the three priority-0 packets. -/
theorem C17_put_position_witness :
    abcQueue.m_bInitialized = true ∧
      ∃ q1, Put abcQueue (some (ctrlMsg 7)) 0 = some (MSGQ_OK, q1) ∧
        q1.m_list = [⟨ctrlMsg 7, 0⟩, ⟨dataMsg 3 500, 0⟩, ⟨dataMsg 2 300, 0⟩,
          ⟨dataMsg 1 200, 0⟩, ⟨ctrlMsg 9, 1⟩] := by
  refine ⟨rfl, ?_⟩
  obtain ⟨q1, h1, hl, _⟩ := C17_put_position abcQueue (ctrlMsg 7) 0 rfl
  refine ⟨q1, h1, ?_⟩
  rw [hl]
  decide

/-- In a sorted list the back-most entry has the largest priority. -/
theorem sortedAsc_le_last (l : List DVDMessageListItem) (item : DVDMessageListItem)
    (h : SortedAsc (l ++ [item])) : ∀ it ∈ l ++ [item], it.priority ≤ item.priority := by
  unfold SortedAsc at h
  rw [List.pairwise_append] at h
  intro it hit
  rcases List.mem_append.mp hit with m | m
  · exact h.2.2 it m item (List.mem_singleton_self _)
  · rw [List.mem_singleton.mp m]

/-- C18: on an initialized, non-aborted queue whose entry list is sorted
ascending by priority, `Get` with timeout 0 returns `MSGQ_OK` if and only if
some resident entry has a priority at least the requested minimum; when it
returns `MSGQ_OK`, the entry handed out is the back-most one, the priority
reported back is that entry's priority, which is the largest priority resident
before the call and at least the requested minimum, and the entry list
afterwards is the old one without its back-most entry. -/
theorem C18_get_choice (q : CDVDMessageQueue) (p : Int)
    (hi : q.m_bInitialized = true) (ha : q.m_bAbortRequest = false)
    (hs : SortedAsc q.m_list) :
    ((Get q 0 p).ret = MSGQ_OK ↔ ∃ it ∈ q.m_list, p ≤ it.priority) ∧
      ((Get q 0 p).ret = MSGQ_OK →
        ∃ l item, q.m_list = l ++ [item] ∧
          (Get q 0 p).pMsg = some item.message ∧
          (Get q 0 p).priority = item.priority ∧
          (Get q 0 p).queue.m_list = l ∧
          p ≤ item.priority ∧
          ∀ it ∈ q.m_list, it.priority ≤ item.priority) := by
  rcases List.eq_nil_or_concat q.m_list with hnil | ⟨l, item, hl⟩
  · have hg : Get q 0 p = ⟨MSGQ_TIMEOUT, none, p, q⟩ :=
      Get_none q p hi ha (by intro item h; rw [hnil] at h; simp at h)
    rw [hg]
    refine ⟨⟨fun h => by simp at h, ?_⟩, fun h => by simp at h⟩
    rintro ⟨it, hit, _⟩
    rw [hnil] at hit
    exact absurd hit (List.not_mem_nil it)
  · rw [List.concat_eq_append] at hl
    have hmax : ∀ it ∈ q.m_list, it.priority ≤ item.priority := by
      rw [hl] at hs ⊢
      exact sortedAsc_le_last l item hs
    by_cases hp : p ≤ item.priority
    · obtain ⟨q1, hg, hl1, _, _, _⟩ := Get_back q l item 0 p hi ha hl hp
      rw [hg]
      refine ⟨⟨fun _ => ⟨item, by rw [hl]; simp, hp⟩, fun _ => rfl⟩, ?_⟩
      intro _
      exact ⟨l, item, hl, rfl, rfl, hl1, hp, hmax⟩
    · have hg : Get q 0 p = ⟨MSGQ_TIMEOUT, none, p, q⟩ := by
        apply Get_none q p hi ha
        intro item1 h
        rw [hl] at h
        simp only [List.getLast?_append, List.getLast?_singleton] at h
        have : item1 = item := by simpa using h.symm
        rw [this]
        omega
      rw [hg]
      refine ⟨⟨fun h => by simp at h, ?_⟩, fun h => by simp at h⟩
      rintro ⟨it, hit, hge⟩
      have := hmax it hit
      omega

/-- C18 at a concrete input: `Get` with minimum priority 1 on `abcQueue` hands
out the control message of priority 1 and leaves the three packets. -/
theorem C18_get_choice_witness :
    abcQueue.m_bInitialized = true ∧ abcQueue.m_bAbortRequest = false ∧
      SortedAsc abcQueue.m_list ∧ (Get abcQueue 0 1).ret = MSGQ_OK ∧
      ∃ l item, abcQueue.m_list = l ++ [item] ∧
        (Get abcQueue 0 1).pMsg = some item.message ∧
        (Get abcQueue 0 1).priority = item.priority ∧
        (Get abcQueue 0 1).queue.m_list = l ∧
        1 ≤ item.priority ∧
        ∀ it ∈ abcQueue.m_list, it.priority ≤ item.priority := by
  have hs : SortedAsc abcQueue.m_list := by simp [SortedAsc, abcQueue]
  have hok : (Get abcQueue 0 1).ret = MSGQ_OK := by decide
  exact ⟨rfl, rfl, hs, hok, (C18_get_choice abcQueue 1 rfl rfl hs).2 hok⟩

/-! ## Monotonicity of the level and the divisor of line 244 -/

theorem IsDataBased_congr (q1 q2 : CDVDMessageQueue) (hb : q2.m_TimeBack = q1.m_TimeBack)
    (hf : q2.m_TimeFront = q1.m_TimeFront) : IsDataBased q2 = IsDataBased q1 := by
  unfold IsDataBased
  rw [hb, hf]

/-- With a positive capacity, and a value of line 246 where it is used,
`GetLevel` returns, and at most 100. -/
theorem GetLevel_le_100 (rs : ℚ → ℚ → Option Int) (q : CDVDMessageQueue)
    (hC : 0 < q.m_iMaxDataSize)
    (hrs : IsDataBased q = false → ∃ span, rs q.m_TimeFront q.m_TimeBack = some span) :
    ∃ level, GetLevel rs q = some level ∧ level ≤ 100 := by
  by_cases c1 : q.m_iDataSize > q.m_iMaxDataSize
  · exact ⟨100, GetLevel_of_over rs q c1, le_refl _⟩
  · by_cases c2 : q.m_iDataSize = 0
    · exact ⟨0, GetLevel_of_zero rs q c2 (by omega), by decide⟩
    · have hle : q.m_iDataSize ≤ q.m_iMaxDataSize := by omega
      cases hdb : IsDataBased q
      · obtain ⟨span, hs⟩ := hrs hdb
        refine ⟨_, GetLevel_of_timeBased rs q span c2 hle hdb hs, ?_⟩
        split
        · decide
        · exact min_le_left _ _
      · exact ⟨_, GetLevel_of_dataBased rs q c2 hle hC hdb, min_le_left _ _⟩

/-- The levels of two states with the same capacity and time stamps are ordered
as their occupancies, provided the hundredfold of the larger occupancy is
representable in `int` where the byte ratio is taken and line 246 yields a
value that is not negative where it is used. -/
theorem GetLevel_monotone (rs : ℚ → ℚ → Option Int) (q1 q2 : CDVDMessageQueue)
    (hC : 0 < q1.m_iMaxDataSize)
    (hsame : q2.m_iMaxDataSize = q1.m_iMaxDataSize) (hb : q2.m_TimeBack = q1.m_TimeBack)
    (hf : q2.m_TimeFront = q1.m_TimeFront) (h0 : 0 ≤ q1.m_iDataSize)
    (hle : q1.m_iDataSize ≤ q2.m_iDataSize)
    (hrep : q2.m_iDataSize ≤ q2.m_iMaxDataSize → 100 * q2.m_iDataSize ≤ INT_MAX)
    (hrs : IsDataBased q2 = false →
      ∃ span, rs q2.m_TimeFront q2.m_TimeBack = some span ∧ 0 ≤ span) :
    ∃ l1 l2, GetLevel rs q1 = some l1 ∧ GetLevel rs q2 = some l2 ∧ l1 ≤ l2 := by
  have hC2 : 0 < q2.m_iMaxDataSize := by rw [hsame]; exact hC
  have hdbe := IsDataBased_congr q1 q2 hb hf
  by_cases c2 : q2.m_iDataSize > q2.m_iMaxDataSize
  · have hrs1 : IsDataBased q1 = false →
        ∃ span, rs q1.m_TimeFront q1.m_TimeBack = some span := by
      intro h
      rw [← hdbe] at h
      obtain ⟨span, hs, _⟩ := hrs h
      rw [hb, hf] at hs
      exact ⟨span, hs⟩
    obtain ⟨l1, h1, hl1⟩ := GetLevel_le_100 rs q1 hC hrs1
    exact ⟨l1, 100, h1, GetLevel_of_over rs q2 c2, hl1⟩
  · have hle2 : q2.m_iDataSize ≤ q2.m_iMaxDataSize := by omega
    have hrep2 := hrep hle2
    by_cases c1 : q1.m_iDataSize = 0
    · obtain ⟨l2, h2, hl2, _⟩ := GetLevel_range rs q2 (by omega) (by omega) hrep2 hrs
      exact ⟨0, l2, GetLevel_of_zero rs q1 c1 (by omega), h2, hl2⟩
    · have hle1 : q1.m_iDataSize ≤ q1.m_iMaxDataSize := by omega
      have c2z : q2.m_iDataSize ≠ 0 := by omega
      unfold INT_MAX at hrep2
      cases hdb : IsDataBased q1
      · rw [hdb] at hdbe
        obtain ⟨span, hs, _⟩ := hrs hdbe
        have hs1 : rs q1.m_TimeFront q1.m_TimeBack = some span := by
          rw [← hb, ← hf]
          exact hs
        exact ⟨_, _, GetLevel_of_timeBased rs q1 span c1 hle1 hdb hs1,
          GetLevel_of_timeBased rs q2 span c2z hle2 hdbe hs, le_refl _⟩
      · rw [hdb] at hdbe
        refine ⟨_, _, GetLevel_of_dataBased rs q1 c1 hle1 hC hdb,
          GetLevel_of_dataBased rs q2 c2z hle2 hC2 hdbe, ?_⟩
        rw [toInt32_of_range _ (by omega) (by omega), toInt32_of_range _ (by omega) hrep2,
          Int.tdiv_eq_ediv (by omega) (by omega), Int.tdiv_eq_ediv (by omega) (by omega), hsame]
        exact min_le_min (le_refl _) (Int.ediv_le_ediv hC (by omega))

/-- C11 at the failing input: capacity 40000000, no time stamps.  One packet of
20000000 bytes gives occupancy 20000000 and level 50; one packet of 30000000
bytes gives the larger occupancy 30000000, whose hundredfold leaves the range
of `int` at line 244, and level -32 where the byte ratio is 75.  Both states
satisfy the hypotheses of the claim and the level falls, whatever line 246
would yield. -/
theorem C11_level_not_monotone :
    Put (SetMaxDataSize (Init construct) 40000000) (some (dataMsg 1 20000000)) 0
        = some (MSGQ_OK, halfQueue) ∧
    Put (SetMaxDataSize (Init construct) 40000000) (some (dataMsg 1 30000000)) 0
        = some (MSGQ_OK, bigQueue) ∧
    0 < halfQueue.m_iMaxDataSize ∧ bigQueue.m_iMaxDataSize = halfQueue.m_iMaxDataSize ∧
      bigQueue.m_TimeBack = halfQueue.m_TimeBack ∧
      bigQueue.m_TimeFront = halfQueue.m_TimeFront ∧
      0 ≤ halfQueue.m_iDataSize ∧ halfQueue.m_iDataSize ≤ bigQueue.m_iDataSize ∧
      bigQueue.m_iDataSize ≤ bigQueue.m_iMaxDataSize ∧
      INT_MAX < 100 * bigQueue.m_iDataSize ∧
      toInt32 (100 * bigQueue.m_iDataSize) = -1294967296 ∧
      min 100 (100 * bigQueue.m_iDataSize / bigQueue.m_iMaxDataSize) = 75 ∧
      (∀ rs : ℚ → ℚ → Option Int, GetLevel rs halfQueue = some 50) ∧
      (∀ rs : ℚ → ℚ → Option Int, GetLevel rs bigQueue = some (-32)) ∧
    (∀ rs : ℚ → ℚ → Option Int,
      ¬ (∀ q1 q2 : CDVDMessageQueue, 0 < q1.m_iMaxDataSize →
        q2.m_iMaxDataSize = q1.m_iMaxDataSize → q2.m_TimeBack = q1.m_TimeBack →
        q2.m_TimeFront = q1.m_TimeFront → 0 ≤ q1.m_iDataSize →
        q1.m_iDataSize ≤ q2.m_iDataSize →
        ∃ l1 l2, GetLevel rs q1 = some l1 ∧ GetLevel rs q2 = some l2 ∧ l1 ≤ l2)) := by
  refine ⟨by decide, by decide, by decide, rfl, rfl, rfl, by decide, by decide, by decide,
    by decide, by decide, by decide, GetLevel_halfQueue, GetLevel_bigQueue, ?_⟩
  intro rs h
  obtain ⟨l1, l2, h1, h2, hle⟩ :=
    h halfQueue bigQueue (by decide) rfl rfl rfl (by decide) (by decide)
  rw [GetLevel_halfQueue] at h1
  rw [GetLevel_bigQueue] at h2
  have e1 : l1 = 50 := (Option.some.inj h1).symm
  have e2 : l2 = -32 := (Option.some.inj h2).symm
  omega

/-- No level is returned in exactly two cases: the division of line 244 traps
in the branch `reachesDivision`, for a zero divisor or for the smallest `int`
over -1, or line 246 is reached and yields none. -/
theorem GetLevel_eq_none_iff (rs : ℚ → ℚ → Option Int) (q : CDVDMessageQueue) :
    GetLevel rs q = none ↔
      (reachesDivision q ∧ (q.m_iMaxDataSize = 0 ∨
        (toInt32 (100 * q.m_iDataSize) = -2147483648 ∧ q.m_iMaxDataSize = -1))) ∨
      (q.m_iDataSize ≠ 0 ∧ q.m_iDataSize ≤ q.m_iMaxDataSize ∧ IsDataBased q = false ∧
        rs q.m_TimeFront q.m_TimeBack = none) := by
  by_cases c1 : q.m_iDataSize > q.m_iMaxDataSize
  · rw [GetLevel_of_over rs q c1]
    unfold reachesDivision
    constructor
    · intro h
      exact absurd h (by simp)
    · rintro (⟨⟨h, _⟩, _⟩ | ⟨_, h, _⟩)
      · exact absurd c1 h
      · omega
  · by_cases c2 : q.m_iDataSize = 0
    · unfold reachesDivision
      have hg : GetLevel rs q = some 0 := GetLevel_of_zero rs q c2 (by omega)
      rw [hg]
      constructor
      · intro h
        exact absurd h (by simp)
      · rintro (⟨⟨_, h, _⟩, _⟩ | ⟨h, _⟩)
        · exact absurd c2 h
        · exact absurd c2 h
    · have hle : q.m_iDataSize ≤ q.m_iMaxDataSize := by omega
      cases hdb : IsDataBased q
      · cases hs : rs q.m_TimeFront q.m_TimeBack with
        | none =>
          rw [GetLevel_of_timeBased_none rs q c2 hle hdb hs]
          exact ⟨fun _ => Or.inr ⟨c2, hle, rfl, rfl⟩, fun _ => rfl⟩
        | some span =>
          rw [GetLevel_of_timeBased rs q span c2 hle hdb hs]
          unfold reachesDivision
          rw [hdb]
          constructor
          · intro h
            exact absurd h (by simp)
          · rintro (⟨⟨_, _, h⟩, _⟩ | ⟨_, _, _, h⟩)
            · exact absurd h (by decide)
            · exact absurd h (by simp)
      · unfold GetLevel reachesDivision
        simp only [c1, if_false, c2, hdb, if_true]
        by_cases c3 : q.m_iMaxDataSize = 0
        · simp [c3, c2]
        · by_cases c4 : toInt32 (100 * q.m_iDataSize) = -2147483648 ∧ q.m_iMaxDataSize = -1
          · simp [c3, c4, c2]
          · simp only [c3, c4, if_false]
            simp [c3, c4]

/-- Without the hypothesis of C20 the divisor can be zero: occupancy -1 without
a capacity. -/
theorem GetLevel_minusOneQueue (rs : ℚ → ℚ → Option Int) :
    GetLevel rs minusOneQueue = none :=
  (GetLevel_eq_none_iff rs minusOneQueue).mpr
    (Or.inl ⟨⟨by decide, by decide, by decide⟩, Or.inl rfl⟩)

/-- C20: for every queue state with `m_iDataSize ≥ 0`, whenever `GetLevel`
reaches the division of line 244 the divisor `m_iMaxDataSize` is positive, so
that the division returns a level; `GetLevel` returns a level in every such
state in which line 246 yields a value or is not reached; with
`m_iMaxDataSize = 0` a non-zero occupancy returns 100 and a zero occupancy
returns 0 before the division. -/
theorem C20_divisor_positive (rs : ℚ → ℚ → Option Int) (q : CDVDMessageQueue)
    (h0 : 0 ≤ q.m_iDataSize) :
    (reachesDivision q → 0 < q.m_iMaxDataSize) ∧
      (reachesDivision q → ∃ level, GetLevel rs q = some level) ∧
      ((IsDataBased q = false → ∃ span, rs q.m_TimeFront q.m_TimeBack = some span) →
        ∃ level, GetLevel rs q = some level) ∧
      (q.m_iMaxDataSize = 0 → q.m_iDataSize ≠ 0 → GetLevel rs q = some 100) ∧
      (q.m_iMaxDataSize = 0 → q.m_iDataSize = 0 → GetLevel rs q = some 0) := by
  have hpos : reachesDivision q → 0 < q.m_iMaxDataSize := by
    intro h
    unfold reachesDivision at h
    omega
  have hret : ∀ h : GetLevel rs q = none,
      IsDataBased q = false ∧ rs q.m_TimeFront q.m_TimeBack = none := by
    intro hg
    rcases (GetLevel_eq_none_iff rs q).mp hg with ⟨hr, hz⟩ | ⟨_, _, hdb, hn⟩
    · have := hpos hr
      omega
    · exact ⟨hdb, hn⟩
  refine ⟨hpos, ?_, ?_, ?_, ?_⟩
  · intro hr
    cases hg : GetLevel rs q with
    | some level => exact ⟨level, rfl⟩
    | none =>
      have hdb := (hret hg).1
      unfold reachesDivision at hr
      rw [hdb] at hr
      exact absurd hr.2.2 (by decide)
  · intro hrs
    cases hg : GetLevel rs q with
    | some level => exact ⟨level, rfl⟩
    | none =>
      obtain ⟨hdb, hn⟩ := hret hg
      obtain ⟨span, hs⟩ := hrs hdb
      rw [hn] at hs
      exact absurd hs (by simp)
  · intro hC hne
    exact GetLevel_of_over rs q (by omega)
  · intro hC hz
    exact GetLevel_of_zero rs q hz (by omega)

/-- C20 at a concrete input: occupancy 800 of capacity 1000 without time stamps
reaches the division with the divisor 1000. -/
theorem C20_divisor_positive_witness :
    0 ≤ scenarioQueueAfterGet.m_iDataSize ∧ reachesDivision scenarioQueueAfterGet ∧
      0 < scenarioQueueAfterGet.m_iMaxDataSize ∧
      ∃ level, GetLevel exactRound scenarioQueueAfterGet = some level :=
  have hr : reachesDivision scenarioQueueAfterGet := ⟨by decide, by decide, by decide⟩
  ⟨by decide, hr, (C20_divisor_positive exactRound scenarioQueueAfterGet (by decide)).1 hr,
    (C20_divisor_positive exactRound scenarioQueueAfterGet (by decide)).2.1 hr⟩

/-! ## Time stamps after a drain -/

theorem packetTime_ne_nopts (packet : DemuxPacket) (h : timestamped packet) :
    packetTime packet ≠ DVD_NOPTS_VALUE := by
  unfold packetTime
  unfold timestamped at h
  split
  · assumption
  · rename_i hd
    rcases h with h | h
    · exact absurd h hd
    · exact h

/-- Minimum priorities at or below every resident priority are admissible for a
drain. -/
theorem admissible_of_le (ps : List Int) :
    ∀ q : CDVDMessageQueue, (∀ p ∈ ps, ∀ it ∈ q.m_list, p ≤ it.priority) →
      admissible q ps := by
  induction ps with
  | nil => intro q _; trivial
  | cons p ps ih =>
    intro q h
    refine ⟨h p (List.mem_cons_self _ _), ih _ ?_⟩
    intro p1 hp1 it hit
    apply h p1 (List.mem_cons_of_mem _ hp1) it
    rcases Get_list q 0 p with e | e
    · rw [e] at hit; exact hit
    · rw [e] at hit; exact List.dropLast_subset _ hit

/-- The time stamps after `Get` has handed out a priority-0 data packet with a
time stamp: `m_TimeBack` is the time stamp of that packet, `m_TimeFront` is
untouched. -/
theorem Get_timed (q : CDVDMessageQueue) (l : List DVDMessageListItem)
    (item : DVDMessageListItem) (p : Int) (hi : q.m_bInitialized = true)
    (ha : q.m_bAbortRequest = false) (hl : q.m_list = l ++ [item])
    (ht : isTimedEntry item) (hp : p ≤ 0) :
    (Get q 0 p).ret = MSGQ_OK ∧ (Get q 0 p).pMsg = some item.message ∧
      (Get q 0 p).queue.m_list = l ∧ (Get q 0 p).queue.m_bInitialized = true ∧
      (Get q 0 p).queue.m_bAbortRequest = false ∧
      (Get q 0 p).queue.m_TimeFront = q.m_TimeFront ∧
      (Get q 0 p).queue.m_TimeBack = entryTime item := by
  obtain ⟨hprio, hkind, packet, hpk, hts⟩ := ht
  have hlast : q.m_list.getLast? = some item := by rw [hl]; simp
  have hdrop : q.m_list.dropLast = l := by rw [hl]; simp
  have hge : item.priority ≥ p := by omega
  have hc : (item.message.IsType Message.DEMUXER_PACKET && item.priority == 0) = true := by
    simp [CDVDMsg.IsType, hkind, hprio]
  have hg : item.message.GetPacket = some packet := hpk
  have htime : (if packet.dts ≠ DVD_NOPTS_VALUE then packet.dts
      else if packet.pts ≠ DVD_NOPTS_VALUE then packet.pts else q.m_TimeBack)
      = entryTime item := by
    unfold entryTime packetTime
    rw [hpk]
    dsimp only
    split
    · rfl
    · rename_i hd
      rcases hts with h | h
      · exact absurd h hd
      · simp only [h, ne_eq, not_false_eq_true, if_true]
  unfold Get
  simp only [hi, ha, Bool.not_true, Bool.false_eq_true, if_false, hlast, hge, if_true, hc, hg,
    getExit, htime, hdrop, and_self]

/-- Draining a queue that holds only priority-0 data packets with time stamps
leaves `m_TimeFront` as it was and `m_TimeBack` at the time stamp of the
front-most entry, the last one handed out. -/
theorem drain_timed (ps : List Int) :
    ∀ q : CDVDMessageQueue, q.m_bInitialized = true → q.m_bAbortRequest = false →
      ps.length = q.m_list.length → (∀ p ∈ ps, p ≤ 0) →
      (∀ it ∈ q.m_list, isTimedEntry it) →
      (drain q ps).2.m_TimeFront = q.m_TimeFront ∧
        (drain q ps).2.m_TimeBack
          = (match q.m_list.head? with
            | some it => entryTime it
            | none => q.m_TimeBack) := by
  induction ps with
  | nil =>
    intro q _ _ hlen _ _
    have : q.m_list = [] := List.length_eq_zero.mp hlen.symm
    simp [drain, this]
  | cons p ps ih =>
    intro q hi ha hlen hps ht
    rcases List.eq_nil_or_concat q.m_list with hnil | ⟨l, item, hl⟩
    · rw [hnil] at hlen; simp at hlen
    · rw [List.concat_eq_append] at hl
      have hitem : isTimedEntry item := ht item (by rw [hl]; simp)
      obtain ⟨hret, hmsg, hl1, hi1, ha1, hf1, hb1⟩ :=
        Get_timed q l item p hi ha hl hitem (hps p (List.mem_cons_self _ _))
      have hlen1 : ps.length = (Get q 0 p).queue.m_list.length := by
        rw [hl1]; rw [hl] at hlen; simp at hlen; exact hlen
      have ht1 : ∀ it ∈ (Get q 0 p).queue.m_list, isTimedEntry it := by
        intro it hit
        rw [hl1] at hit
        exact ht it (by rw [hl]; simp [hit])
      obtain ⟨h1, h2⟩ := ih (Get q 0 p).queue hi1 ha1 hlen1
        (fun p1 hp1 => hps p1 (List.mem_cons_of_mem _ hp1)) ht1
      have hd : drain q (p :: ps) = ((item.message, (Get q 0 p).priority) ::
          (drain (Get q 0 p).queue ps).1, (drain (Get q 0 p).queue ps).2) := by
        simp only [drain, hret, hmsg]
      rw [hd]
      refine ⟨by rw [h1, hf1], ?_⟩
      show (drain (Get q 0 p).queue ps).2.m_TimeBack = _
      rw [h2, hl1, hb1, hl]
      cases l with
      | nil => rfl
      | cons a t => rfl

/-- An item whose priority is at most the one of the front-most entry goes to
the front. -/
theorem insertItem_front (item : DVDMessageListItem) (l : List DVDMessageListItem)
    (h : ∀ it, l.head? = some it → item.priority ≤ it.priority) :
    insertItem item l = item :: l := by
  cases l with
  | nil => rfl
  | cons it rest =>
    unfold insertItem
    have := h it rfl
    simp only [this, if_true]

/-- The put of a priority-0 data packet with a time stamp sets `m_TimeFront` to
that time stamp. -/
theorem Put_timed (q : CDVDMessageQueue) (x : Nat × DemuxPacket)
    (hi : q.m_bInitialized = true) (hts : timestamped x.2) :
    ∃ q1, Put q (some ⟨x.1, Message.DEMUXER_PACKET, some x.2⟩) 0 = some (MSGQ_OK, q1) ∧
      q1.m_list = insertItem (dataEntry x) q.m_list ∧ q1.m_bInitialized = true ∧
      q1.m_bAbortRequest = q.m_bAbortRequest ∧ q1.m_TimeFront = packetTime x.2 := by
  have htime : (if x.2.dts ≠ DVD_NOPTS_VALUE then x.2.dts
      else if x.2.pts ≠ DVD_NOPTS_VALUE then x.2.pts else q.m_TimeFront) = packetTime x.2 := by
    unfold packetTime
    split
    · rfl
    · rename_i hd
      rcases hts with h | h
      · exact absurd h hd
      · simp only [h, ne_eq, not_false_eq_true, if_true]
  unfold Put
  simp only [hi, Bool.not_true, Bool.false_eq_true, if_false, CDVDMsg.IsType,
    CDVDMsg.GetPacket, beq_self_eq_true, Bool.and_self, if_true, htime]
  exact ⟨_, rfl, rfl, rfl, rfl, rfl⟩

/-- A sequence of puts of priority-0 data packets with time stamps stacks the
entries at the front, newest first, and leaves `m_TimeFront` at the time stamp
of the last packet put. -/
theorem putAll_timed (pks : List (Nat × DemuxPacket)) :
    ∀ q : CDVDMessageQueue, q.m_bInitialized = true → (∀ x ∈ pks, timestamped x.2) →
      (∀ it, q.m_list.head? = some it → 0 ≤ it.priority) →
      ∃ q1, putAll q (dataPuts pks) = some q1 ∧ q1.m_bInitialized = true ∧
        q1.m_bAbortRequest = q.m_bAbortRequest ∧
        q1.m_list = pks.reverse.map dataEntry ++ q.m_list ∧
        q1.m_TimeFront = (match pks.getLast? with
          | some x => packetTime x.2
          | none => q.m_TimeFront) := by
  induction pks with
  | nil => intro q hi _ _; exact ⟨q, rfl, hi, rfl, rfl, rfl⟩
  | cons x rest ih =>
    intro q hi hts hhead
    obtain ⟨q1, h1, hl1, hi1, ha1, hf1⟩ := Put_timed q x hi (hts x (List.mem_cons_self _ _))
    rw [insertItem_front (dataEntry x) q.m_list hhead] at hl1
    have hhead1 : ∀ it, q1.m_list.head? = some it → 0 ≤ it.priority := by
      intro it hit
      rw [hl1] at hit
      simp only [List.head?_cons, Option.some.injEq] at hit
      rw [← hit]
      exact le_refl _
    obtain ⟨q2, h2, hi2, ha2, hl2, hf2⟩ :=
      ih q1 hi1 (fun y hy => hts y (List.mem_cons_of_mem _ hy)) hhead1
    refine ⟨q2, ?_, hi2, by rw [ha2, ha1], ?_, ?_⟩
    · simp only [dataPuts, List.map_cons, putAll, h1]
      exact h2
    · rw [hl2, hl1]
      simp
    · rw [hf2, hf1]
      cases rest with
      | nil => rfl
      | cons y t =>
        cases hg : (y :: t).getLast? with
        | none => simp at hg
        | some z =>
          have e : (x :: y :: t).getLast? = some z := by
            rw [List.getLast?_cons_cons]; exact hg
          rw [e]

/-- C12, as stated, fails: after one packet with decode time stamp 3 s is put
into a freshly initialized empty queue and handed out again by `Get`, the entry
list is empty and both `m_TimeBack` and `m_TimeFront` are 3 s, not
`DVD_NOPTS_VALUE`. -/
theorem C12_drain_keeps_time_stamps :
    ∃ q1, putAll (Init construct) (dataPuts onePacket) = some q1 ∧
      (drain q1 [0]).1 = dataPuts onePacket ∧
      (drain q1 [0]).2.m_list = [] ∧
      (drain q1 [0]).2.m_TimeBack = 3000000 ∧
      (drain q1 [0]).2.m_TimeFront = 3000000 ∧
      (drain q1 [0]).2.m_TimeBack ≠ DVD_NOPTS_VALUE ∧
      (drain q1 [0]).2.m_TimeFront ≠ DVD_NOPTS_VALUE :=
  ⟨_, rfl, by decide, by decide, by decide, by decide, by decide, by decide⟩

/-- C12 (amended): `Flush` of the demuxer packet kind or of the wildcard, and
`Init`, reset `m_TimeBack` and `m_TimeFront` to `DVD_NOPTS_VALUE`; a drain does
not.  Starting from a freshly initialized empty queue, after the puts of a
non-empty sequence of priority-0 data packets with time stamps and one `Get`
(minimum priority at most 0, timeout 0) for each of them, the packets have come
out in the order of the puts, the entry list is empty, and `m_TimeFront` and
`m_TimeBack` both hold the time stamp of the last packet put, which is the last
one handed out. -/
theorem C12_time_stamps_after_drain (q0 : CDVDMessageQueue) (pks : List (Nat × DemuxPacket))
    (ps : List Int) (last : Nat × DemuxPacket) (he : q0.m_list = [])
    (hlast : pks.getLast? = some last) (hts : ∀ x ∈ pks, timestamped x.2)
    (hlen : ps.length = pks.length) (hps : ∀ p ∈ ps, p ≤ 0) :
    (∃ q1, putAll (Init q0) (dataPuts pks) = some q1 ∧
        (drain q1 ps).1 = dataPuts pks ∧
        (drain q1 ps).2.m_list = [] ∧
        (drain q1 ps).2.m_TimeFront = packetTime last.2 ∧
        (drain q1 ps).2.m_TimeBack = packetTime last.2 ∧
        packetTime last.2 ≠ DVD_NOPTS_VALUE) ∧
      (∀ (q : CDVDMessageQueue) (k : Message),
        k = Message.DEMUXER_PACKET ∨ k = Message.NONE →
        (Flush q k).m_TimeBack = DVD_NOPTS_VALUE ∧
          (Flush q k).m_TimeFront = DVD_NOPTS_VALUE) ∧
      (∀ q : CDVDMessageQueue, (Init q).m_TimeBack = DVD_NOPTS_VALUE ∧
        (Init q).m_TimeFront = DVD_NOPTS_VALUE) := by
  refine ⟨?_, ?_, fun q => ⟨rfl, rfl⟩⟩
  · have hhead : ∀ it, (Init q0).m_list.head? = some it → 0 ≤ it.priority := by
      intro it hit
      have e : (Init q0).m_list = [] := he
      rw [e] at hit
      simp at hit
    obtain ⟨q1, h1, hi1, ha1, hl1, hf1⟩ := putAll_timed pks (Init q0) rfl hts hhead
    have e : (Init q0).m_list = [] := he
    rw [e, List.append_nil] at hl1
    rw [hlast] at hf1
    have ha1f : q1.m_bAbortRequest = false := by rw [ha1]; rfl
    have hlen1 : ps.length = q1.m_list.length := by rw [hl1, hlen]; simp
    have htimed : ∀ it ∈ q1.m_list, isTimedEntry it := by
      intro it hit
      rw [hl1] at hit
      obtain ⟨x, hx, hxe⟩ := List.mem_map.mp hit
      rw [← hxe]
      exact ⟨rfl, rfl, x.2, rfl, hts x (List.mem_reverse.mp hx)⟩
    have hadm : admissible q1 ps := by
      apply admissible_of_le
      intro p hp it hit
      rw [(htimed it hit).1]
      exact hps p hp
    obtain ⟨d1, d2⟩ := drain_all ps q1 hi1 ha1f hlen1 hadm
    obtain ⟨t1, t2⟩ := drain_timed ps q1 hi1 ha1f hlen1 hps htimed
    refine ⟨q1, h1, ?_, d2, by rw [t1, hf1], ?_,
      packetTime_ne_nopts _ (hts last (List.mem_of_getLast?_eq_some hlast))⟩
    · rw [d1, hl1]
      simp [dataPuts, dataEntry, List.map_reverse, Function.comp_def]
    · rw [t2, hl1, List.head?_map, List.head?_reverse, hlast]
      rfl
  · intro q k hk
    have c : (k == Message.DEMUXER_PACKET || k == Message.NONE) = true := by
      rcases hk with e | e <;> simp [e]
    simp [Flush, c]

/-- C12 (amended) at a concrete input: packets with decode time stamps 0 s and
1 s are put and handed out; both time stamps end at 1 s. -/
theorem C12_time_stamps_after_drain_witness :
    ∃ q1, putAll (Init construct)
        (dataPuts [(1, ⟨250, DVD_NOPTS_VALUE, 0⟩), (2, ⟨250, DVD_NOPTS_VALUE, 1000000⟩)])
          = some q1 ∧
      (drain q1 [0, 0]).1
        = dataPuts [(1, ⟨250, DVD_NOPTS_VALUE, 0⟩), (2, ⟨250, DVD_NOPTS_VALUE, 1000000⟩)] ∧
      (drain q1 [0, 0]).2.m_list = [] ∧
      (drain q1 [0, 0]).2.m_TimeFront = packetTime ⟨250, DVD_NOPTS_VALUE, 1000000⟩ ∧
      (drain q1 [0, 0]).2.m_TimeBack = packetTime ⟨250, DVD_NOPTS_VALUE, 1000000⟩ ∧
      packetTime ⟨250, DVD_NOPTS_VALUE, 1000000⟩ ≠ DVD_NOPTS_VALUE :=
  (C12_time_stamps_after_drain construct
    [(1, ⟨250, DVD_NOPTS_VALUE, 0⟩), (2, ⟨250, DVD_NOPTS_VALUE, 1000000⟩)] [0, 0]
    (2, ⟨250, DVD_NOPTS_VALUE, 1000000⟩) rfl rfl
    (by intro x hx; simp at hx; rcases hx with e | e <;> (subst e; left; decide))
    rfl (by decide)).1

/-! ## Uninitialized and aborted queues, and the life cycle -/

/-- While the queue is uninitialized, `Put` of a non-null message and `Get`
return `MSGQ_NOT_INITIALIZED` and change nothing, `Put` of a null message does
not return; on an initialized queue `Put` of a null message returns
`MSGQ_INVALID_MSG` and changes nothing. -/
theorem uninitialized_calls :
    (∀ (q : CDVDMessageQueue) (msg : CDVDMsg) (priority : Int), q.m_bInitialized = false →
        Put q (some msg) priority = some (MSGQ_NOT_INITIALIZED, q)) ∧
    (∀ (q : CDVDMessageQueue) (priority : Int), q.m_bInitialized = false →
        Put q none priority = none) ∧
    (∀ (q : CDVDMessageQueue) (t : Nat) (p : Int), q.m_bInitialized = false →
        Get q t p = ⟨MSGQ_NOT_INITIALIZED, none, p, q⟩) ∧
    (∀ (q : CDVDMessageQueue) (priority : Int), q.m_bInitialized = true →
        Put q none priority = some (MSGQ_INVALID_MSG, q)) ∧
    (∀ q : CDVDMessageQueue, (End q).m_bInitialized = false) ∧
    construct.m_bInitialized = false := by
  refine ⟨?_, ?_, ?_, ?_, fun _ => rfl, rfl⟩
  · intro q msg priority h
    simp [Put, h]
  · intro q priority h
    simp [Put, h]
  · intro q t p h
    simp [Get, h]
  · intro q priority h
    simp [Put, h]

/-- C13 at the failing input: on the freshly constructed, uninitialized queue
and on a queue after `End`, `Put` of a null message does not return (null
pointer dereference), while `Put` of a non-null message and `Get` return
`MSGQ_NOT_INITIALIZED` without a change, and `Put` of a null message on the
initialized queue returns `MSGQ_INVALID_MSG` without a change. -/
theorem C13_put_null_uninitialized :
    construct.m_bInitialized = false ∧ Put construct none 0 = none ∧
      (End abcQueue).m_bInitialized = false ∧ Put (End abcQueue) none 0 = none ∧
      Put construct (some (ctrlMsg 1)) 0 = some (MSGQ_NOT_INITIALIZED, construct) ∧
      Get construct 0 0 = ⟨MSGQ_NOT_INITIALIZED, none, 0, construct⟩ ∧
      Put abcQueue none 0 = some (MSGQ_INVALID_MSG, abcQueue) := by
  refine ⟨rfl, by decide, rfl, by decide, by decide, by decide, by decide⟩

theorem Get_abortRequest (q : CDVDMessageQueue) (t : Nat) (p : Int) :
    (Get q t p).queue.m_bAbortRequest = q.m_bAbortRequest := by
  unfold Get
  split
  · rfl
  · split
    · rw [getExit_queue]
    · split
      · split
        · rw [getExit_queue]
          dsimp only
          split
          · split <;> rfl
          · rfl
        · rw [getNoEntry_queue]
      · rw [getNoEntry_queue]

theorem Flush_flags (q : CDVDMessageQueue) (type : Message) :
    (Flush q type).m_bInitialized = q.m_bInitialized ∧
      (Flush q type).m_bAbortRequest = q.m_bAbortRequest := by
  unfold Flush
  split <;> exact ⟨rfl, rfl⟩

/-- On an initialized queue every call of `Put` returns and keeps both flags. -/
theorem Put_flags (q : CDVDMessageQueue) (pMsg : Option CDVDMsg) (priority : Int)
    (hi : q.m_bInitialized = true) :
    ∃ r q1, Put q pMsg priority = some (r, q1) ∧ q1.m_bInitialized = true ∧
      q1.m_bAbortRequest = q.m_bAbortRequest := by
  cases pMsg with
  | none => exact ⟨MSGQ_INVALID_MSG, q, by simp [Put, hi], hi, rfl⟩
  | some msg =>
    obtain ⟨q1, h1, _, hi1, ha1, _⟩ := Put_ok q msg priority hi
    exact ⟨MSGQ_OK, q1, h1, hi1, ha1⟩

/-- With the abort flag set, `Get` on an initialized queue returns `MSGQ_ABORT`
and changes nothing. -/
theorem Get_aborted (q : CDVDMessageQueue) (t : Nat) (p : Int)
    (hi : q.m_bInitialized = true) (ha : q.m_bAbortRequest = true) :
    Get q t p = ⟨MSGQ_ABORT, none, p, q⟩ := by
  simp [Get, getExit, hi, ha]

/-- Calls of `Put`, `Get` and `Flush` on an initialized queue return and keep
both flags. -/
theorem runCalls_flags (calls : List QueueCall) :
    ∀ q : CDVDMessageQueue, q.m_bInitialized = true →
      ∃ q1, runCalls q calls = some q1 ∧ q1.m_bInitialized = true ∧
        q1.m_bAbortRequest = q.m_bAbortRequest := by
  induction calls with
  | nil => intro q hi; exact ⟨q, rfl, hi, rfl⟩
  | cons c cs ih =>
    intro q hi
    cases c with
    | put pMsg priority =>
      obtain ⟨r, q1, h1, hi1, ha1⟩ := Put_flags q pMsg priority hi
      obtain ⟨q2, h2, hi2, ha2⟩ := ih q1 hi1
      exact ⟨q2, by simp only [runCalls, h1]; exact h2, hi2, by rw [ha2, ha1]⟩
    | get t p =>
      obtain ⟨q2, h2, hi2, ha2⟩ := ih (Get q t p).queue (by rw [Get_initialized]; exact hi)
      exact ⟨q2, by simp only [runCalls]; exact h2, hi2, by rw [ha2, Get_abortRequest]⟩
    | flush type =>
      obtain ⟨q2, h2, hi2, ha2⟩ := ih (Flush q type) (by rw [(Flush_flags q type).1]; exact hi)
      exact ⟨q2, by simp only [runCalls]; exact h2, hi2, by rw [ha2, (Flush_flags q type).2]⟩

/-- C14: `Abort` does not change the entry list and is idempotent.  After
`Abort` on an initialized queue and any further calls of `Put`, `Get` and
`Flush` (which all return), every `Get`, for any minimum priority and any
timeout, returns `MSGQ_ABORT` and no message and leaves the whole queue
unchanged, also when an eligible entry is resident; after `Init`, `Get` on a
resident eligible back-most entry returns `MSGQ_OK` with that entry again. -/
theorem C14_abort_sticky (q : CDVDMessageQueue) (calls : List QueueCall)
    (hi : q.m_bInitialized = true) :
    (Abort q).m_list = q.m_list ∧ Abort (Abort q) = Abort q ∧
      ∃ q1, runCalls (Abort q) calls = some q1 ∧
        q1.m_bInitialized = true ∧ q1.m_bAbortRequest = true ∧
        (∀ (t : Nat) (p : Int), Get q1 t p = ⟨MSGQ_ABORT, none, p, q1⟩) ∧
        (∀ (l : List DVDMessageListItem) (item : DVDMessageListItem) (t : Nat) (p : Int),
          q1.m_list = l ++ [item] → p ≤ item.priority →
          (Get (Init q1) t p).ret = MSGQ_OK ∧
            (Get (Init q1) t p).pMsg = some item.message ∧
            (Get (Init q1) t p).queue.m_list = l) := by
  refine ⟨rfl, rfl, ?_⟩
  obtain ⟨q1, h1, hi1, ha1⟩ := runCalls_flags calls (Abort q) hi
  have ha1t : q1.m_bAbortRequest = true := by rw [ha1]; rfl
  refine ⟨q1, h1, hi1, ha1t, fun t p => Get_aborted q1 t p hi1 ha1t, ?_⟩
  intro l item t p hl hp
  obtain ⟨q2, hg, hl2, _, _, _⟩ := Get_back (Init q1) l item t p rfl rfl hl hp
  rw [hg]
  exact ⟨rfl, rfl, hl2⟩

/-- C14 at a concrete input: after `Abort` on `abcQueue`, a put, a get and a
flush, `Get` returns `MSGQ_ABORT`. -/
theorem C14_abort_sticky_witness :
    abcQueue.m_bInitialized = true ∧
      ∃ q1, runCalls (Abort abcQueue)
          [QueueCall.put (some (ctrlMsg 7)) 2, QueueCall.get 0 0,
           QueueCall.flush (Message.OTHER 5)] = some q1 ∧
        q1.m_bInitialized = true ∧ q1.m_bAbortRequest = true ∧
        Get q1 0 0 = ⟨MSGQ_ABORT, none, 0, q1⟩ := by
  obtain ⟨_, _, q1, h1, hi1, ha1, hg, _⟩ := C14_abort_sticky abcQueue
    [QueueCall.put (some (ctrlMsg 7)) 2, QueueCall.get 0 0,
     QueueCall.flush (Message.OTHER 5)] rfl
  exact ⟨rfl, q1, h1, hi1, ha1, hg 0 0⟩

/-- C15: for every queue state, `End` leaves the queue uninitialized with an
empty entry list, and `Init` after `End` yields the start state: empty entry
list, `m_iDataSize` 0, both time stamps `DVD_NOPTS_VALUE`, no abort request,
initialized, capacity unchanged; this is the state of `Init` on a freshly
constructed queue with that capacity. -/
theorem C15_end_then_init (s : CDVDMessageQueue) :
    (End s).m_bInitialized = false ∧ (End s).m_list = [] ∧
      Init (End s) =
        { m_list := []
          m_bAbortRequest := false
          m_bInitialized := true
          m_iDataSize := 0
          m_TimeFront := DVD_NOPTS_VALUE
          m_TimeBack := DVD_NOPTS_VALUE
          m_iMaxDataSize := s.m_iMaxDataSize } ∧
      Init (End s) = SetMaxDataSize (Init construct) s.m_iMaxDataSize := by
  have hl : (End s).m_list = [] := by
    show (Flush s Message.NONE).m_list = []
    rw [Flush_list, flushLoop_eq_filter]
    simp
  have hm : (End s).m_iMaxDataSize = s.m_iMaxDataSize := by
    show (Flush s Message.NONE).m_iMaxDataSize = _
    unfold Flush
    split <;> rfl
  have he : Init (End s) =
      { m_list := []
        m_bAbortRequest := false
        m_bInitialized := true
        m_iDataSize := 0
        m_TimeFront := DVD_NOPTS_VALUE
        m_TimeBack := DVD_NOPTS_VALUE
        m_iMaxDataSize := s.m_iMaxDataSize } := by
    unfold Init
    rw [hl, hm]
  refine ⟨rfl, hl, he, ?_⟩
  rw [he]
  rfl

/-! ## The barrier of WaitUntilEmpty -/

/-- C19, as stated, fails: `WaitUntilEmpty` puts its barrier with the default
priority 0, not with a priority above 0; on a queue holding one priority-0
data packet the barrier goes in front of the packet, and the next `Get` with
minimum priority 0 hands out the packet, not the barrier. -/
theorem C19_barrier_behind_data :
    ¬ (0 < Put_default_priority) ∧
      WaitUntilEmpty oneDataQueue 7 = some (MSGQ_OK, barrierQueue) ∧
      barrierQueue.m_list = [⟨syncMsg 7, 0⟩, ⟨dataMsg 1 200, 0⟩] ∧
      (Get barrierQueue 0 0).ret = MSGQ_OK ∧
      (Get barrierQueue 0 0).pMsg = some (dataMsg 1 200) ∧
      (Get barrierQueue 0 0).pMsg ≠ some (syncMsg 7) := by
  refine ⟨by decide, by decide, rfl, by decide, by decide, by decide⟩

/-- C19 (amended): on an initialized queue `WaitUntilEmpty` puts its barrier
with the default priority 0, in front of the first resident entry of priority
at least 0; the barrier is not of the demuxer packet kind and changes neither
`m_iDataSize` nor the time stamps.  When the queue is not aborted and every
resident entry has a priority of at least 0, a drain with minimum priorities at
most 0 hands out every entry that was resident at the call, in their order of
service, and the barrier last. -/
theorem C19_barrier_served_last (q : CDVDMessageQueue) (ptr : Nat)
    (hi : q.m_bInitialized = true) :
    ∃ q1, WaitUntilEmpty q ptr = some (MSGQ_OK, q1) ∧
      q1.m_list = q.m_list.takeWhile (fun it => decide (it.priority < 0))
        ++ ⟨syncMsg ptr, 0⟩ :: q.m_list.dropWhile (fun it => decide (it.priority < 0)) ∧
      (syncMsg ptr).IsType Message.DEMUXER_PACKET = false ∧
      q1.m_iDataSize = q.m_iDataSize ∧ q1.m_TimeBack = q.m_TimeBack ∧
      q1.m_TimeFront = q.m_TimeFront ∧
      (q.m_bAbortRequest = false → (∀ it ∈ q.m_list, 0 ≤ it.priority) →
        ∀ ps : List Int, ps.length = q.m_list.length + 1 → (∀ p ∈ ps, p ≤ 0) →
          (drain q1 ps).1
            = q.m_list.reverse.map (fun it => (it.message, it.priority))
              ++ [(syncMsg ptr, 0)]) := by
  obtain ⟨q1, h1, hl1, hi1, ha1, _⟩ := Put_ok q (syncMsg ptr) 0 hi
  have hfields : q1.m_iDataSize = q.m_iDataSize ∧ q1.m_TimeBack = q.m_TimeBack ∧
      q1.m_TimeFront = q.m_TimeFront := by
    have h2 := h1
    unfold Put at h2
    simp only [hi, Bool.not_true, Bool.false_eq_true, if_false, syncMsg, CDVDMsg.IsType] at h2
    have hk : (Message.GENERAL_SYNCHRONIZE == Message.DEMUXER_PACKET) = false := by decide
    simp only [hk, Bool.false_and, Bool.false_eq_true, if_false, Option.some.injEq,
      Prod.mk.injEq, true_and] at h2
    rw [← h2]
    exact ⟨rfl, rfl, rfl⟩
  refine ⟨q1, h1, ?_, rfl, hfields.1, hfields.2.1, hfields.2.2, ?_⟩
  · rw [hl1]
    exact insertItem_eq_takeWhile ⟨syncMsg ptr, 0⟩ q.m_list
  · intro ha hge ps hlen hps
    have hfront : insertItem ⟨syncMsg ptr, 0⟩ q.m_list = ⟨syncMsg ptr, 0⟩ :: q.m_list := by
      apply insertItem_front
      intro it hit
      exact hge it (List.mem_of_mem_head? hit)
    rw [hfront] at hl1
    have hlen1 : ps.length = q1.m_list.length := by rw [hl1, hlen]; simp
    have hadm : admissible q1 ps := by
      apply admissible_of_le
      intro p hp it hit
      rw [hl1] at hit
      have hp0 := hps p hp
      rcases List.mem_cons.mp hit with e | m
      · rw [e]; exact hp0
      · exact le_trans hp0 (hge it m)
    obtain ⟨d1, _⟩ := drain_all ps q1 hi1 (by rw [ha1, ha]) hlen1 hadm
    rw [d1, hl1]
    simp

/-- C19 (amended) at a concrete input: after `WaitUntilEmpty` on a queue holding
one priority-0 data packet, two gets hand out the packet and then the barrier. -/
theorem C19_barrier_served_last_witness :
    oneDataQueue.m_bInitialized = true ∧
      ∃ q1, WaitUntilEmpty oneDataQueue 7 = some (MSGQ_OK, q1) ∧
        q1.m_iDataSize = oneDataQueue.m_iDataSize ∧
        (drain q1 [0, 0]).1 = [(dataMsg 1 200, 0), (syncMsg 7, 0)] := by
  obtain ⟨q1, h1, _, _, hs, _, _, hd⟩ := C19_barrier_served_last oneDataQueue 7 rfl
  refine ⟨rfl, q1, h1, hs, ?_⟩
  have := hd rfl (by decide) [0, 0] rfl (by decide)
  rw [this]
  rfl

end DVDMessageQueue
